import Mathlib

/-!
# Verification of the Peloton task-service handler

A shallow embedding of `pkg/jobmgr/tasksvc/handler.go` (the TaskManager RPC
handler), of the Aurora-metadata label codec (`pkg/.../label`), and of the
watch processor, together with proofs about the behaviour of `Start`, `Stop`,
`Restart`, `Refresh` and `GetPodEvents`.

External collaborators (the durable store, the cached job factory's
compare-and-set outcomes, the leader-election candidate) are passed in as an
explicit environment `Env`; every observable side effect (CAS writes, task
patches, goal-state enqueues) is recorded in an `Effect` log returned next to
the RPC response, so frame conditions ("no store writes") are statements
about that log.
-/

namespace Peloton

/-- Job type (`peloton.api.v0.job.JobType`). -/
inductive JobType
  | BATCH
  | SERVICE
deriving DecidableEq, Repr

/-- Job runtime states (`peloton.api.v0.job.JobState`), the subset the handler
observes. -/
inductive JobState
  | INITIALIZED
  | PENDING
  | RUNNING
  | SUCCEEDED
  | FAILED
  | KILLING
  | KILLED
deriving DecidableEq, Repr

/-- Task runtime states (`peloton.api.v0.task.TaskState`), the subset the
handler observes. -/
inductive TaskState
  | INITIALIZED
  | PENDING
  | RUNNING
  | SUCCEEDED
  | FAILED
  | KILLING
  | KILLED
  | DELETED
deriving DecidableEq, Repr

/-- Modelled from the spec: `util.IsPelotonJobStateTerminal` is not under
`src/`; §3 I4 and P4 list the terminal job runtime states as
SUCCEEDED, FAILED and KILLED. -/
def IsPelotonJobStateTerminal (s : JobState) : Bool :=
  match s with
  | JobState.SUCCEEDED => true
  | JobState.FAILED => true
  | JobState.KILLED => true
  | _ => false

/-- Modelled from the spec: `goalstateutil.GetDefaultJobGoalState` is not under
`src/`; the spec says only that Start sets the job goal to the
"default-for-type". No claim depends on the particular values. -/
def GetDefaultJobGoalState (t : JobType) : JobState :=
  match t with
  | JobType.BATCH => JobState.SUCCEEDED
  | JobType.SERVICE => JobState.RUNNING

/-- Modelled from the spec: `jobmgr_task.GetDefaultTaskGoalState` is not under
`src/`; the task goal default for the job type. -/
def GetDefaultTaskGoalState (t : JobType) : TaskState :=
  match t with
  | JobType.BATCH => TaskState.SUCCEEDED
  | JobType.SERVICE => TaskState.RUNNING

/-- Modelled from the spec: `jobmgrcommon.MaxConcurrencyErrorRetry` is not
under `src/`; §6 configuration gives `max_concurrency_error_retry` default 5. -/
def MaxConcurrencyErrorRetry : Nat := 5

/-- A decimal-digit run parsed as a `Nat`, `none` unless the string is a
nonempty all-digit string (the model of `strconv.ParseUint(s, 10, 64)`,
rejecting values of 2^64 or more). -/
def parseDecimalU64 (s : String) : Option Nat :=
  if s.data = [] then none
  else if s.data.all Char.isDigit then
    let n := s.data.foldl (fun a c => a * 10 + (c.toNat - 48)) 0
    if n < 2 ^ 64 then some n else none
  else none

/-- The characters after the last hyphen, `none` when there is no hyphen. -/
def afterLastHyphen : List Char → Option (List Char)
  | [] => none
  | c :: rest =>
    match afterLastHyphen rest with
    | some suffix => some suffix
    | none => if c = '-' then some rest else none

/-- Modelled from the spec: `util.ParseRunID` is not under `src/`; §6 says a
`mesos_task_id` has the form `<JobID>-<InstanceID>-<RunID>` and parsing splits
on the last hyphen, the suffix being a decimal unsigned 64-bit integer. -/
def ParseRunID (s : String) : Option Nat :=
  match afterLastHyphen s.data with
  | none => none
  | some suffix => parseDecimalU64 (String.mk suffix)

/-- Modelled from the spec: `util.CreateMesosTaskID` is not under `src/`; §6
gives the canonical form `<JobID>-<InstanceID>-<RunID>`. -/
def CreateMesosTaskID (jobId : String) (inst : Nat) (run : Nat) : String :=
  jobId ++ "-" ++ toString inst ++ "-" ++ toString run

/-- Job runtime, the fields the handler reads and writes. -/
structure JobRuntime where
  state : JobState
  goalState : JobState
  desiredStateVersion : Nat
deriving DecidableEq, Repr

/-- Task runtime, the fields the handler reads and writes. -/
structure TaskRuntime where
  state : TaskState
  goalState : TaskState
  mesosTaskId : String
  desiredMesosTaskId : String
  message : String
  reason : String
deriving DecidableEq, Repr

/-- Job configuration, the fields the handler reads. -/
structure JobConfig where
  jobType : JobType
  instanceCount : Nat
deriving DecidableEq, Repr

/-- A task info row as fetched from the store. -/
structure TaskInfo where
  instanceId : Nat
  runtime : TaskRuntime
deriving DecidableEq, Repr

/-- An instance range (`task.InstanceRange`), `[From, To)`. -/
structure InstanceRange where
  From : Nat
  To : Nat
deriving DecidableEq, Repr

/-- A field-level task runtime diff (`jobmgrcommon.RuntimeDiff`): unset fields
are preserved by `PatchTasks`. -/
structure RuntimeDiff where
  goalState : Option TaskState := none
  message : Option String := none
  reason : Option String := none
  terminationReason : Option String := none
  desiredMesosTaskId : Option String := none
deriving DecidableEq, Repr

/-- Outcome of one `CompareAndSetRuntime` call against the cached entity
(§4.2): success, the optimistic-concurrency conflict, or another store
error. -/
inductive CASOutcome
  | ok
  | unexpectedVersion
  | otherError (msg : String)
deriving DecidableEq, Repr

/-- Modelled from the spec: `RegenerateMesosTaskRuntime` (`taskutil`) is not
under `src/`; the spec says Start regenerates `mesos_task_id` with a new run
(scenario 2: "J1-2-3" becomes "J1-2-4"), run parsing per §6 with parse
failure yielding run 0. -/
def RegenerateMesosTaskRuntime (jobId : String) (inst : Nat) (rt : TaskRuntime) : TaskRuntime :=
  let run :=
    match ParseRunID rt.mesosTaskId with
    | some r => r
    | none => 0
  { rt with mesosTaskId := CreateMesosTaskID jobId inst (run + 1) }

/-- One observable side effect of a handler call: a cache insertion, a
write-through runtime mutation, or a goal-state-driver enqueue. Store reads
are not effects. -/
inductive Effect
  | addJob (jobId : String)
  | jobCAS (rt : JobRuntime)
  | taskCAS (inst : Nat) (rt : TaskRuntime)
  | patchTasks (diffs : List (Nat × RuntimeDiff))
  | replaceTasks (insts : List Nat) (force : Bool)
  | enqueueTask (inst : Nat)
  | enqueueJob
  | enqueueJobDefaultDelay
  | fetchPodEvents (podID : String)
deriving DecidableEq, Repr

/-- Is the effect a job-level `CompareAndSetRuntime` write? -/
def Effect.isJobCAS : Effect → Bool
  | Effect.jobCAS _ => true
  | _ => false

/-- Is the effect a task-level runtime write (CAS or patch)? -/
def Effect.isTaskWrite : Effect → Bool
  | Effect.taskCAS _ _ => true
  | Effect.patchTasks _ => true
  | _ => false

/-- Is the effect a task enqueue for the given instance? -/
def Effect.isEnqueueTaskFor (inst : Nat) : Effect → Bool
  | Effect.enqueueTask i => i == inst
  | _ => false

/-- The environment a handler call runs against: the leader-election
predicate, the store and cache read results, and the outcome of each
optimistic-concurrency write, indexed by retry attempt. Go map iteration
order is abstracted as the order of the returned lists. -/
structure Env where
  isLeader : Bool
  getConfig : Option JobConfig
  getJobRuntime : Nat → Except String JobRuntime
  jobCAS : Nat → CASOutcome
  tasksByRanges : List InstanceRange → Option (List TaskInfo)
  addTask : Nat → Bool
  getTaskRuntime : Nat → Nat → Except String TaskRuntime
  taskCAS : Nat → Nat → CASOutcome
  patchOutcome : Option String
  storeGetJobConfig : Option JobConfig
  taskRuntimesByRange : InstanceRange → Option (List (Nat × TaskRuntime))

/-- A transport-level RPC error (`yarpcerrors`): returned as `(nil, err)` by
the Go handler. -/
inductive RpcError
  | unavailable (msg : String)
  | invalidArgument (msg : String)
  | notFound (msg : String)
  | storeError (msg : String)
deriving DecidableEq, Repr

/-- In-payload error variants of `task.StartResponse`. -/
inductive StartError
  | notFound (msg : String)
  | outOfRange (instanceCount : Nat)
  | failure (msg : String)
deriving DecidableEq, Repr

/-- The wire `task.StartResponse`. -/
structure StartResponse where
  startedInstanceIds : List Nat := []
  invalidInstanceIds : List Nat := []
  error : Option StartError := none
deriving DecidableEq, Repr

/-- The job-runtime update loop of `Start` (handler.go:453-507): read the
runtime, reject terminal BATCH jobs, set `state = PENDING` and the default
goal, CAS; on `UnexpectedVersion` retry while `count + 1 <
MaxConcurrencyErrorRetry`. `.error r` is an early return carrying the whole
RPC result, `.ok ()` is the loop's `break`. -/
def startJobUpdateLoop (env : Env) (cfg : JobConfig) (count : Nat) :
    Except (Except RpcError StartResponse) Unit × List Effect :=
  match env.getJobRuntime count with
  | Except.error e => (Except.error (Except.error (RpcError.storeError e)), [])
  | Except.ok jobRuntime =>
    if cfg.jobType = JobType.BATCH ∧ IsPelotonJobStateTerminal jobRuntime.state then
      (Except.error (Except.error
        (RpcError.invalidArgument "cannot start tasks in a terminated job")), [])
    else
      let newRuntime : JobRuntime :=
        { jobRuntime with
          state := JobState.PENDING
          goalState := GetDefaultJobGoalState cfg.jobType }
      match env.jobCAS count with
      | CASOutcome.ok => (Except.ok (), [Effect.jobCAS newRuntime])
      | CASOutcome.unexpectedVersion =>
        if _h : count + 1 < MaxConcurrencyErrorRetry then
          let (r, effs) := startJobUpdateLoop env cfg (count + 1)
          (r, Effect.jobCAS newRuntime :: effs)
        else
          (Except.error (Except.ok
            { error := some (StartError.failure
                "task start failed while updating job status unexpected version") }),
           [Effect.jobCAS newRuntime])
      | CASOutcome.otherError e =>
        (Except.error (Except.ok
          { error := some (StartError.failure
              ("task start failed while updating job status " ++ e)) }),
         [Effect.jobCAS newRuntime])
termination_by MaxConcurrencyErrorRetry - count

/-- The outcome of the per-task loop of `Start` for one task. -/
inductive StartTaskOutcome
  | started
  | failed
  | skipped
deriving DecidableEq, Repr

/-- The per-task retry loop of `Start` (handler.go:540-600): read the task
runtime, skip unless the goal is KILLED, regenerate the mesos task id, set the
default goal and message, CAS with the same bounded retry. -/
def startTaskLoop (env : Env) (jobId : String) (cfg : JobConfig) (ti : TaskInfo)
    (count : Nat) : StartTaskOutcome × List Effect :=
  match env.getTaskRuntime ti.instanceId count with
  | Except.error _ => (StartTaskOutcome.failed, [])
  | Except.ok taskRuntime =>
    if taskRuntime.goalState ≠ TaskState.KILLED then
      (StartTaskOutcome.skipped, [])
    else
      let regenerated := RegenerateMesosTaskRuntime jobId ti.instanceId taskRuntime
      let newRuntime : TaskRuntime :=
        { regenerated with
          goalState := GetDefaultTaskGoalState cfg.jobType
          message := "Task start API request" }
      match env.taskCAS ti.instanceId count with
      | CASOutcome.ok =>
        (StartTaskOutcome.started, [Effect.taskCAS ti.instanceId newRuntime])
      | CASOutcome.unexpectedVersion =>
        if _h : count + 1 < MaxConcurrencyErrorRetry then
          let (r, effs) := startTaskLoop env jobId cfg ti (count + 1)
          (r, Effect.taskCAS ti.instanceId newRuntime :: effs)
        else
          (StartTaskOutcome.failed, [Effect.taskCAS ti.instanceId newRuntime])
      | CASOutcome.otherError _ =>
        (StartTaskOutcome.failed, [Effect.taskCAS ti.instanceId newRuntime])
termination_by MaxConcurrencyErrorRetry - count

/-- The per-task iteration of `Start` (handler.go:529-601): `AddTask` failure
records the instance as invalid; otherwise the retry loop decides the
outcome. Returns (startedInstanceIds, failedInstanceIds, effects). -/
def startProcessTasks (env : Env) (jobId : String) (cfg : JobConfig) :
    List TaskInfo → List Nat × List Nat × List Effect
  | [] => ([], [], [])
  | ti :: rest =>
    let (s, f, e) := startProcessTasks env jobId cfg rest
    if env.addTask ti.instanceId then
      match startTaskLoop env jobId cfg ti 0 with
      | (StartTaskOutcome.started, effs) => (ti.instanceId :: s, f, effs ++ e)
      | (StartTaskOutcome.failed, effs) => (s, ti.instanceId :: f, effs ++ e)
      | (StartTaskOutcome.skipped, effs) => (s, f, effs ++ e)
    else
      (s, ti.instanceId :: f, e)

/-- The RPC `TaskManager.Start` (handler.go:419-614). -/
def Start (env : Env) (jobId : String) (ranges : List InstanceRange) :
    Except RpcError StartResponse × List Effect :=
  if ¬ env.isLeader then
    (Except.error (RpcError.unavailable "Task Start API not suppported on non-leader"), [])
  else
    let effs0 := [Effect.addJob jobId]
    match env.getConfig with
    | none =>
      (Except.ok { error := some (StartError.notFound "job not found") }, effs0)
    | some cfg =>
      match startJobUpdateLoop env cfg 0 with
      | (Except.error r, effs1) => (r, effs0 ++ effs1)
      | (Except.ok (), effs1) =>
        match env.tasksByRanges ranges with
        | none =>
          (Except.ok { error := some (StartError.outOfRange cfg.instanceCount) },
           effs0 ++ effs1)
        | some taskInfos =>
          let (started, failed, effs2) := startProcessTasks env jobId cfg taskInfos
          let effs3 := started.map Effect.enqueueTask ++ [Effect.enqueueJobDefaultDelay]
          (Except.ok { startedInstanceIds := started, invalidInstanceIds := failed },
           effs0 ++ effs1 ++ effs2 ++ effs3)

/-- In-payload error variants of `task.StopResponse`. -/
inductive StopError
  | notFound (msg : String)
  | outOfRange (instanceCount : Nat)
  | updateError (msg : String)
deriving DecidableEq, Repr

/-- The wire `task.StopResponse`. -/
structure StopResponse where
  stoppedInstanceIds : List Nat := []
  invalidInstanceIds : List Nat := []
  error : Option StopError := none
deriving DecidableEq, Repr

/-- The job-runtime update loop of `stopJob` (handler.go:628-679): read the
runtime; if the goal is already KILLED return all instances as stopped;
otherwise bump `desiredStateVersion`, set the goal to KILLED and CAS with the
same bounded retry; surface failures as the `UpdateError` variant. -/
def stopJobLoop (env : Env) (instanceList : List Nat) (count : Nat) :
    Except StopResponse Unit × List Effect :=
  match env.getJobRuntime count with
  | Except.error e =>
    (Except.error
      { error := some (StopError.updateError ("Job state fetch failed for " ++ e))
        invalidInstanceIds := instanceList }, [])
  | Except.ok jobRuntime =>
    if jobRuntime.goalState = JobState.KILLED then
      (Except.error { stoppedInstanceIds := instanceList }, [])
    else
      let newRuntime : JobRuntime :=
        { jobRuntime with
          desiredStateVersion := jobRuntime.desiredStateVersion + 1
          goalState := JobState.KILLED }
      match env.jobCAS count with
      | CASOutcome.ok => (Except.ok (), [Effect.jobCAS newRuntime])
      | CASOutcome.unexpectedVersion =>
        if _h : count + 1 < MaxConcurrencyErrorRetry then
          let (r, effs) := stopJobLoop env instanceList (count + 1)
          (r, Effect.jobCAS newRuntime :: effs)
        else
          (Except.error
            { error := some (StopError.updateError
                "Job state update failed for unexpected version")
              invalidInstanceIds := instanceList },
           [Effect.jobCAS newRuntime])
      | CASOutcome.otherError e =>
        (Except.error
          { error := some (StopError.updateError ("Job state update failed for " ++ e))
            invalidInstanceIds := instanceList },
         [Effect.jobCAS newRuntime])
termination_by MaxConcurrencyErrorRetry - count

/-- The helper `stopJob` (handler.go:616-687): stop the whole job by flipping the job
goal state, then enqueue the job in the goal-state driver. An early return
from the loop (already-KILLED goal or an error) skips the enqueue. -/
def stopJob (env : Env) (jobId : String) (instanceCount : Nat) :
    Except RpcError StopResponse × List Effect :=
  let instanceList := List.range instanceCount
  let effs0 := [Effect.addJob jobId]
  match stopJobLoop env instanceList 0 with
  | (Except.error resp, effs1) => (Except.ok resp, effs0 ++ effs1)
  | (Except.ok (), effs1) =>
    (Except.ok { stoppedInstanceIds := instanceList },
     effs0 ++ effs1 ++ [Effect.enqueueJob])

/-- The per-task diff construction of `Stop` (handler.go:754-772): tasks whose
goal is already KILLED are skipped; the rest get a diff setting the goal to
KILLED, a message, an empty reason and a KILLED_ON_REQUEST termination
status. Returns (runtimeDiffs, instanceIds) in fetch order. -/
def stopBuildDiffs : List TaskInfo → List (Nat × RuntimeDiff) × List Nat
  | [] => ([], [])
  | ti :: rest =>
    let (diffs, insts) := stopBuildDiffs rest
    if ti.runtime.goalState = TaskState.KILLED then
      (diffs, insts)
    else
      let diff : RuntimeDiff :=
        { goalState := some TaskState.KILLED
          message := some "Task stop API request"
          reason := some ""
          terminationReason := some "TERMINATION_STATUS_REASON_KILLED_ON_REQUEST" }
      ((ti.instanceId, diff) :: diffs, ti.instanceId :: insts)

/-- The RPC `TaskManager.Stop` (handler.go:690-808): leader guard; whole-job
short-circuit when no range is given or a single range covers `[0,
instance_count)`; otherwise patch the selected tasks' goal states and enqueue
the stopped tasks and the job. -/
def Stop (env : Env) (jobId : String) (ranges : List InstanceRange) :
    Except RpcError StopResponse × List Effect :=
  if ¬ env.isLeader then
    (Except.error (RpcError.unavailable "Task Stop API not suppported on non-leader"), [])
  else
    let effs0 := [Effect.addJob jobId]
    match env.getConfig with
    | none =>
      (Except.ok { error := some (StopError.notFound "job not found") }, effs0)
    | some cfg =>
      let wholeJob : Bool :=
        match ranges with
        | [] => true
        | [r] => r.From == 0 && decide (cfg.instanceCount ≤ r.To)
        | _ => false
      if wholeJob then
        stopJob env jobId cfg.instanceCount
      else
        match env.tasksByRanges ranges with
        | none =>
          (Except.ok { error := some (StopError.outOfRange cfg.instanceCount) }, effs0)
        | some taskInfos =>
          let (runtimeDiffs, instanceIds) := stopBuildDiffs taskInfos
          let effsPatch := [Effect.patchTasks runtimeDiffs]
          match env.patchOutcome with
          | some e =>
            (Except.ok
              { error := some (StopError.updateError
                  ("Goalstate update failed for " ++ e)) },
             effs0 ++ effsPatch ++ [Effect.enqueueJobDefaultDelay])
          | none =>
            (Except.ok { stoppedInstanceIds := instanceIds },
             effs0 ++ effsPatch ++ instanceIds.map Effect.enqueueTask
               ++ [Effect.enqueueJobDefaultDelay])

/-- The diff one task receives in `getRuntimeDiffsForRestart` (handler.go:
863-873): `desired_mesos_task_id` raised to the current run plus one, a
run-id parse failure falling back to run 0. -/
def restartDiffEntry (jobId : String) (ti : TaskInfo) : Nat × RuntimeDiff :=
  let runID :=
    match ParseRunID ti.runtime.mesosTaskId with
    | some r => r
    | none => 0
  (ti.instanceId,
   ({ desiredMesosTaskId :=
        some (CreateMesosTaskID jobId ti.instanceId (runID + 1)) } : RuntimeDiff))

/-- The helper `getRuntimeDiffsForRestart` (handler.go:852-877): for each fetched task a
diff setting `desired_mesos_task_id` to the same job and instance with the
current run plus one. -/
def getRuntimeDiffsForRestart (env : Env) (jobId : String)
    (ranges : List InstanceRange) : Option (List (Nat × RuntimeDiff)) :=
  match env.tasksByRanges ranges with
  | none => none
  | some taskInfos => some (taskInfos.map (restartDiffEntry jobId))

/-- The RPC `TaskManager.Restart` (handler.go:810-848): leader guard, diff
construction, `PatchTasks`, then one goal-state enqueue per patched task.
Errors are transport-level. -/
def Restart (env : Env) (jobId : String) (ranges : List InstanceRange) :
    Except RpcError Unit × List Effect :=
  if ¬ env.isLeader then
    (Except.error (RpcError.unavailable "Task Restart API not supported on non-leader"), [])
  else
    let effs0 := [Effect.addJob jobId]
    match getRuntimeDiffsForRestart env jobId ranges with
    | none => (Except.error (RpcError.storeError "failed to get tasks for job"), effs0)
    | some runtimeDiffs =>
      let effsPatch := [Effect.patchTasks runtimeDiffs]
      match env.patchOutcome with
      | some e => (Except.error (RpcError.storeError e), effs0 ++ effsPatch)
      | none =>
        (Except.ok (),
         effs0 ++ effsPatch ++ runtimeDiffs.map (fun d => Effect.enqueueTask d.1))

/-- The RPC `TaskManager.Refresh` (handler.go:320-380): leader guard; job config read
from the store; range defaulting to `[0, instance_count)` and clamped to the
instance count; task runtimes fetched for the range (empty is NotFound); then
`ReplaceTasks(runtimes, force = true)`, one enqueue per refreshed task and a
job enqueue with default delay. -/
def Refresh (env : Env) (jobId : String) (range? : Option InstanceRange) :
    Except RpcError Unit × List Effect :=
  if ¬ env.isLeader then
    (Except.error
      (RpcError.unavailable "Task Refresh API not suppported on non-leader"), [])
  else
    match env.storeGetJobConfig with
    | none => (Except.error (RpcError.notFound "job not found"), [])
    | some cfg =>
      let reqRange :=
        match range? with
        | none => { From := 0, To := cfg.instanceCount : InstanceRange }
        | some r => r
      let reqRange :=
        if cfg.instanceCount < reqRange.To then
          { reqRange with To := cfg.instanceCount }
        else reqRange
      match env.taskRuntimesByRange reqRange with
      | none => (Except.error (RpcError.notFound "tasks not found"), [])
      | some runtimes =>
        if runtimes.length = 0 then
          (Except.error (RpcError.notFound "tasks not found"), [])
        else
          (Except.ok (),
           [Effect.addJob jobId,
            Effect.replaceTasks (runtimes.map Prod.fst) true]
             ++ runtimes.map (fun r => Effect.enqueueTask r.1)
             ++ [Effect.enqueueJobDefaultDelay])

/-- A pod event as stored (`pod.PodEvent`): version fields are decimal
strings. -/
structure StorePodEvent where
  podId : String
  prevPodId : String
  desiredPodId : String
  actualState : String
  desiredState : String
  timestamp : String
  version : String
  desiredVersion : String
  hostname : String
  agentId : String
  message : String
  reason : String
  healthy : String
deriving DecidableEq, Repr

/-- A pod event in wire form (`task.PodEvent`) as `GetPodEvents` builds it. -/
structure PodEventW where
  taskId : String
  actualState : String
  goalState : String
  timestamp : String
  configVersion : Nat
  desiredConfigVersion : Nat
  agentId : String
  hostname : String
  message : String
  reason : String
  healthy : String
  prevTaskId : String
  desiredTaskId : String
deriving DecidableEq, Repr

/-- The model of `strconv.ParseInt(s, 10, 64)`: an optional sign, then a
nonempty digit run, within the signed 64-bit range. -/
def parseInt64 (s : String) : Option Int :=
  match s.data with
  | [] => none
  | '-' :: rest =>
    match parseDecimalU64 (String.mk rest) with
    | none => none
    | some n => if (n : Int) ≤ 2 ^ 63 then some (-(n : Int)) else none
  | '+' :: rest =>
    match parseDecimalU64 (String.mk rest) with
    | none => none
    | some n => if (n : Int) < 2 ^ 63 then some (n : Int) else none
  | _ =>
    match parseDecimalU64 s with
    | none => none
    | some n => if (n : Int) < 2 ^ 63 then some (n : Int) else none

/-- Go conversion `uint64(v)` for a signed 64-bit `v`: reduction modulo 2^64. -/
def toUint64 (v : Int) : Nat := (v % (2 ^ 64 : Int)).toNat

/-- The store of pod events, keyed by the pod id argument (empty string means
the latest run); the job and instance are fixed for the call. -/
structure PodEventsEnv where
  store : String → Except String (List StorePodEvent)

/-- The wire conversion of one iteration of `GetPodEvents` (handler.go:
205-240): convert each event, tracking the last event's `prev_pod_id`; a
version parse failure aborts the call. -/
def convertEventsW : List StorePodEvent → Except String (List PodEventW × String)
  | [] => Except.ok ([], "")
  | e :: rest =>
    match parseInt64 e.version with
    | none => Except.error "error parsing job version"
    | some jobVersion =>
      match parseInt64 e.desiredVersion with
      | none => Except.error "error parsing desired job version"
      | some desiredVersion =>
        let w : PodEventW :=
          { taskId := e.podId
            actualState := e.actualState
            goalState := e.desiredState
            timestamp := e.timestamp
            configVersion := toUint64 jobVersion
            desiredConfigVersion := toUint64 desiredVersion
            agentId := e.agentId
            hostname := e.hostname
            message := e.message
            reason := e.reason
            healthy := e.healthy
            prevTaskId := e.prevPodId
            desiredTaskId := e.desiredPodId }
        match convertEventsW rest with
        | Except.error err => Except.error err
        | Except.ok (ws, lastPrev) =>
          Except.ok (w :: ws, if rest.isEmpty then e.prevPodId else lastPrev)

/-- The run-walking loop of `GetPodEvents` (handler.go:194-255), structural on
the remaining limit: fetch the events of the current run, convert them, stop
when the limit is exhausted, the last event's `prev_pod_id` is empty, or it
decodes to run 0; follow the chain otherwise. Each store fetch is logged. -/
def getPodEventsLoop (env : PodEventsEnv) (fuel : Nat) (podID : String) :
    Except String (List PodEventW) × List Effect :=
  match fuel with
  | 0 => (Except.ok [], [])
  | fuel + 1 =>
    match env.store podID with
    | Except.error _ =>
      (Except.error "error getting pod events from store", [Effect.fetchPodEvents podID])
    | Except.ok podEvents =>
      match convertEventsW podEvents with
      | Except.error e => (Except.error e, [Effect.fetchPodEvents podID])
      | Except.ok (converted, prevPodID) =>
        if prevPodID.length = 0 then
          (Except.ok converted, [Effect.fetchPodEvents podID])
        else
          match ParseRunID prevPodID with
          | none => (Except.error "error parsing prevPodID", [Effect.fetchPodEvents podID])
          | some 0 => (Except.ok converted, [Effect.fetchPodEvents podID])
          | some (_ + 1) =>
            let (r, effs) := getPodEventsLoop env fuel prevPodID
            match r with
            | Except.error e => (Except.error e, Effect.fetchPodEvents podID :: effs)
            | Except.ok more =>
              (Except.ok (converted ++ more), Effect.fetchPodEvents podID :: effs)

/-- The wire `task.GetPodEventsRequest`: the fields the handler reads. -/
structure GetPodEventsRequest where
  runId : String
  limit : Nat
deriving DecidableEq, Repr

/-- The RPC `TaskManager.GetPodEvents` (handler.go:177-260): the limit is the number
of runs to walk; a request for a specific run forces it to 1, and 0 defaults
to 10. -/
def GetPodEvents (env : PodEventsEnv) (body : GetPodEventsRequest) :
    Except String (List PodEventW) × List Effect :=
  let limit := body.limit
  let limit := if body.runId.length ≠ 0 then 1 else limit
  let limit := if limit = 0 then 10 else limit
  getPodEventsLoop env limit body.runId

end Peloton

namespace WatchSvc

/-- Modelled from the spec: the watch processor implementation
(`pkg/jobmgr/watchsvc`) is not under `src/` (only its test is); §4.4 and §3
describe a registry of clients, each with a bounded input queue of size
`BufferSize` and a single-slot signal channel whose zero value is `Unknown`. -/
inductive StopSignal
  | unknown
  | cancel
  | overflow
deriving DecidableEq, Repr

/-- A task watch client: the bounded input queue (events modelled by their
sequence numbers) and the last signal delivered (`unknown` = none yet). -/
structure TaskClient where
  input : List Nat
  signal : StopSignal
deriving DecidableEq, Repr

/-- Watch processor configuration (§4.4). -/
structure Config where
  bufferSize : Nat
  maxClient : Nat
deriving DecidableEq, Repr

/-- The watch processor state: configuration, a fresh-id counter standing in
for UUID allocation, and the registry of task clients. -/
structure WatchProcessor where
  cfg : Config
  nextId : Nat
  taskClients : List (Nat × TaskClient)
deriving DecidableEq, Repr

/-- Modelled from the spec: `NewTaskClient` (§4.4) allocates a fresh id and an
empty queue, failing with ResourceExhausted once `MaxClient` clients are
registered. -/
def NewTaskClient (p : WatchProcessor) :
    Except String (Nat × WatchProcessor) :=
  if p.cfg.maxClient ≤ p.taskClients.length then
    Except.error "ResourceExhausted: max client reached"
  else
    Except.ok (p.nextId,
      { p with
        nextId := p.nextId + 1
        taskClients := p.taskClients ++ [(p.nextId, { input := [], signal := StopSignal.unknown })] })

/-- Modelled from the spec: `StopTaskClient` (§4.4) removes the registry entry
and delivers `Cancel`; an unknown id is NotFound. -/
def StopTaskClient (p : WatchProcessor) (id : Nat) :
    Except String (WatchProcessor × TaskClient) :=
  match p.taskClients.find? (fun c => c.1 == id) with
  | none => Except.error "NotFound: watch id"
  | some (_, c) =>
    Except.ok
      ({ p with taskClients := p.taskClients.filter (fun c => c.1 != id) },
       { c with signal := StopSignal.cancel })

/-- Modelled from the spec: `NotifyTaskChange` (§4.4) attempts a non-blocking
send on each client's queue; a full queue overflow-evicts the client, whose
signal becomes `Overflow`. The second component lists the clients evicted by
this notify, with the delivered signal. -/
def NotifyTaskChange (p : WatchProcessor) (ev : Nat) :
    WatchProcessor × List (Nat × TaskClient) :=
  let results := p.taskClients.map (fun c =>
    if c.2.input.length < p.cfg.bufferSize then
      ((c.1, { c.2 with input := c.2.input ++ [ev] }), true)
    else
      ((c.1, { c.2 with signal := StopSignal.overflow }), false))
  ({ p with
     taskClients := results.filterMap (fun r => if r.2 then some r.1 else none) },
   results.filterMap (fun r => if r.2 then none else some r.1))

/-- Iterated notifies: `n` successive notifies (events numbered from 0), accumulating the evicted
clients. -/
def iterNotify (p : WatchProcessor) : Nat → WatchProcessor × List (Nat × TaskClient)
  | 0 => (p, [])
  | n + 1 =>
    let (p', ev) := iterNotify p n
    let (p'', ev') := NotifyTaskChange p' n
    (p'', ev ++ ev')

end WatchSvc

namespace AuroraLabel

/-- Aurora task metadata (`api.Metadata`): the thrift-generated Go struct has
two `*string` fields carrying json tags `key,omitempty` and
`value,omitempty`; a `none` field is a nil pointer and is omitted from the
marshalled object. -/
structure Metadata where
  key : Option String := none
  value : Option String := none
deriving DecidableEq, Repr

/-- A Peloton label (`peloton.Label`): a key/value string pair. -/
structure Label where
  key : String
  value : String
deriving DecidableEq, Repr

/-- The label key for Aurora metadata (`_auroraMetadataKey`). -/
def auroraMetadataKey : String := "aurora_metadata"

/-- Lowercase hex digit of `n < 16`, as Go's json encoder emits it. -/
def toHexDigit (n : Nat) : Char :=
  if n < 10 then Char.ofNat (48 + n) else Char.ofNat (97 + (n - 10))

/-- One character JSON-escaped, the model of Go `encoding/json`'s string
encoder with HTML escaping on (the `json.Marshal` default): quote, backslash
and the common control characters get two-character escapes, other control
characters and the HTML-significant characters get `u00XX` escapes, and
U+2028/U+2029 get `u202X` escapes. -/
def escapeChar (c : Char) : List Char :=
  if c = '"' then ['\\', '"']
  else if c = '\\' then ['\\', '\\']
  else if c = '\n' then ['\\', 'n']
  else if c = '\r' then ['\\', 'r']
  else if c = '\t' then ['\\', 't']
  else if c = '<' then ['\\', 'u', '0', '0', '3', 'c']
  else if c = '>' then ['\\', 'u', '0', '0', '3', 'e']
  else if c = '&' then ['\\', 'u', '0', '0', '2', '6']
  else if c.toNat < 32 then
    ['\\', 'u', '0', '0', toHexDigit (c.toNat / 16), toHexDigit (c.toNat % 16)]
  else if c.toNat = 8232 then ['\\', 'u', '2', '0', '2', '8']
  else if c.toNat = 8233 then ['\\', 'u', '2', '0', '2', '9']
  else [c]

/-- A string rendered as a JSON string literal (opening and closing quote,
characters escaped). -/
def encodeStringL (s : String) : List Char :=
  '"' :: (s.data.foldr (fun c acc => escapeChar c ++ acc) ['"'])

/-- The characters of the marshalled `key` field name with its colon. -/
def keyFieldLit : List Char := ['"', 'k', 'e', 'y', '"', ':']

/-- The characters of the marshalled `value` field name with its colon. -/
def valueFieldLit : List Char := ['"', 'v', 'a', 'l', 'u', 'e', '"', ':']

/-- The members of one marshalled `Metadata` object, in struct field order,
nil fields omitted (`omitempty`). -/
def encodeMetaFields (m : Metadata) : List Char :=
  match m.key, m.value with
  | none, none => []
  | some k, none => keyFieldLit ++ encodeStringL k
  | none, some v => valueFieldLit ++ encodeStringL v
  | some k, some v =>
    keyFieldLit ++ encodeStringL k ++ ',' :: (valueFieldLit ++ encodeStringL v)

/-- One marshalled `*api.Metadata` slice element: a nil pointer marshals as
`null`, a struct as a JSON object. -/
def encodeMetaElem : Option Metadata → List Char
  | none => ['n', 'u', 'l', 'l']
  | some m => '{' :: (encodeMetaFields m ++ ['}'])

/-- The comma-separated marshalled elements of a nonempty slice. -/
def encodeMetaItems : List (Option Metadata) → List Char
  | [] => []
  | [x] => encodeMetaElem x
  | x :: xs => encodeMetaElem x ++ ',' :: encodeMetaItems xs

/-- The model of `json.Marshal` on `[]*api.Metadata` (as characters): the
slice marshals as a JSON array. -/
def encodeMetaList (md : List (Option Metadata)) : List Char :=
  '[' :: (encodeMetaItems md ++ [']'])

/-- Hex digit value, `none` for a non-hex-digit. -/
def hexVal (c : Char) : Option Nat :=
  if 48 ≤ c.toNat ∧ c.toNat ≤ 57 then some (c.toNat - 48)
  else if 97 ≤ c.toNat ∧ c.toNat ≤ 102 then some (c.toNat - 87)
  else if 65 ≤ c.toNat ∧ c.toNat ≤ 70 then some (c.toNat - 55)
  else none

/-- The character for a two-character escape, `none` for an invalid escape. -/
def unescapeChar (c : Char) : Option Char :=
  if c = '"' then some '"'
  else if c = '\\' then some '\\'
  else if c = '/' then some '/'
  else if c = 'n' then some '\n'
  else if c = 'r' then some '\r'
  else if c = 't' then some '\t'
  else if c = 'b' then some (Char.ofNat 8)
  else if c = 'f' then some (Char.ofNat 12)
  else none

/-- The body of a JSON string literal after the opening quote: the decoded
characters (reversed accumulator) and the rest of the input. Raw control
characters and invalid escapes are rejected, as Go's decoder rejects them. -/
def parseStrBody (acc : List Char) : List Char → Option (List Char × List Char)
  | [] => none
  | c :: rest =>
    if c = '"' then some (acc.reverse, rest)
    else if c = '\\' then
      match rest with
      | [] => none
      | e :: rest2 =>
        if e = 'u' then
          match rest2 with
          | a :: b :: c2 :: d :: rest3 =>
            (match hexVal a, hexVal b, hexVal c2, hexVal d with
             | some va, some vb, some vc, some vd =>
               parseStrBody (Char.ofNat (((va * 16 + vb) * 16 + vc) * 16 + vd) :: acc) rest3
             | _, _, _, _ => none)
          | _ => none
        else
          match unescapeChar e with
          | some ch => parseStrBody (ch :: acc) rest2
          | none => none
    else if c.toNat < 32 then none
    else parseStrBody (c :: acc) rest

/-- A JSON string literal: opening quote, body, closing quote. -/
def parseStringLit (input : List Char) : Option (String × List Char) :=
  match input with
  | [] => none
  | c :: rest =>
    if c = '"' then
      match parseStrBody [] rest with
      | some (cs, rest2) => some (String.mk cs, rest2)
      | none => none
    else none

/-- Strip an expected literal prefix from the input. -/
def stripLit : List Char → List Char → Option (List Char)
  | [], input => some input
  | p :: ps, c :: cs => if c = p then stripLit ps cs else none
  | _ :: _, [] => none

/-- One slice element of the unmarshal: `null`, or an object whose members
are the `key` and `value` fields in struct order (the shapes `json.Marshal`
emits for `*api.Metadata`). -/
def parseMetaElem (input : List Char) : Option (Option Metadata × List Char) :=
  match stripLit ['n', 'u', 'l', 'l'] input with
  | some rest => some (none, rest)
  | none =>
    match input with
    | [] => none
    | c :: rest =>
      if c = '{' then
        match rest with
        | [] => none
        | c2 :: rest2 =>
          if c2 = '}' then some (some {}, rest2)
          else
            match stripLit keyFieldLit rest with
            | some restK =>
              (match parseStringLit restK with
               | none => none
               | some (k, rest3) =>
                 match rest3 with
                 | [] => none
                 | c3 :: rest4 =>
                   if c3 = '}' then some (some { key := some k }, rest4)
                   else if c3 = ',' then
                     match stripLit valueFieldLit rest4 with
                     | none => none
                     | some rest5 =>
                       match parseStringLit rest5 with
                       | none => none
                       | some (v, rest6) =>
                         match rest6 with
                         | [] => none
                         | c4 :: rest7 =>
                           if c4 = '}' then
                             some (some { key := some k, value := some v }, rest7)
                           else none
                   else none)
            | none =>
              match stripLit valueFieldLit rest with
              | none => none
              | some restV =>
                match parseStringLit restV with
                | none => none
                | some (v, rest3) =>
                  match rest3 with
                  | [] => none
                  | c3 :: rest4 =>
                    if c3 = '}' then some (some { value := some v }, rest4)
                    else none
      else none

/-- The elements of a nonempty array with the closing bracket, fuel-bounded
(the fuel only needs to dominate the element count). -/
def parseMetaItems (fuel : Nat) (input : List Char) :
    Option (List (Option Metadata) × List Char) :=
  match fuel with
  | 0 => none
  | fuel + 1 =>
    match parseMetaElem input with
    | none => none
    | some (m, rest) =>
      match rest with
      | [] => none
      | c :: rest2 =>
        if c = ']' then some ([m], rest2)
        else if c = ',' then
          match parseMetaItems fuel rest2 with
          | none => none
          | some (ms, rest3) => some (m :: ms, rest3)
        else none

/-- The model of `json.Unmarshal` into `[]*api.Metadata`, on the array shapes
`json.Marshal` emits: the whole input must be consumed. -/
def decodeMetaList (s : String) : Option (List (Option Metadata)) :=
  match s.data with
  | [] => none
  | c :: rest =>
    if c = '[' then
      match rest with
      | [] => none
      | c2 :: rest2 =>
        if c2 = ']' then (if rest2 = [] then some [] else none)
        else
          match parseMetaItems rest.length rest with
          | some (ms, rest3) => if rest3 = [] then some ms else none
          | none => none
    else none

/-- Function `NewAuroraMetadata` (label package, src/unnamed/part_000): build
the `aurora_metadata` label whose value is the JSON-marshalled metadata list
(`json.Marshal` cannot fail on this type, so the call always succeeds). -/
def NewAuroraMetadata (md : List (Option Metadata)) : Except String Label :=
  Except.ok { key := auroraMetadataKey, value := String.mk (encodeMetaList md) }

/-- Function `ParseAuroraMetadata` (label package, src/unnamed/part_000): scan
for the first label with the `aurora_metadata` key and unmarshal its value;
with no such label, error. -/
def ParseAuroraMetadata : List Label → Except String (List (Option Metadata))
  | [] => Except.error "missing label: aurora_metadata"
  | l :: ls =>
    if l.key = auroraMetadataKey then
      match decodeMetaList l.value with
      | some m => Except.ok m
      | none => Except.error "json unmarshal error"
    else ParseAuroraMetadata ls

end AuroraLabel

namespace Peloton

/-! ## Concrete environments for witnesses and counterexamples -/

/-- A baseline environment: leader, with every store read failing; concrete
environments below override the fields they need. -/
def envBase : Env :=
  { isLeader := true
    getConfig := none
    getJobRuntime := fun _ => Except.error "no runtime"
    jobCAS := fun _ => CASOutcome.ok
    tasksByRanges := fun _ => none
    addTask := fun _ => true
    getTaskRuntime := fun _ _ => Except.error "no runtime"
    taskCAS := fun _ _ => CASOutcome.ok
    patchOutcome := none
    storeGetJobConfig := none
    taskRuntimesByRange := fun _ => none }

/-- A running job runtime at desired-state version 0. -/
def jrtRunning : JobRuntime :=
  { state := JobState.RUNNING, goalState := JobState.RUNNING, desiredStateVersion := 0 }

/-- A running task runtime for instance 0. -/
def rtRunning : TaskRuntime :=
  { state := TaskState.RUNNING, goalState := TaskState.RUNNING,
    mesosTaskId := "J1-0-0", desiredMesosTaskId := "J1-0-0", message := "", reason := "" }

/-! ## C3: non-leader write RPCs -/

/-- C3: every write RPC (Start, Stop, Restart, Refresh) invoked while
`IsLeader()` is false returns Unavailable and performs no effect at all: no
store write, no cache mutation, no goal-state enqueue (the effect log is
empty). -/
theorem C3_nonleader_unavailable (env : Env) (h : env.isLeader = false)
    (jobId : String) (ranges : List InstanceRange) (range? : Option InstanceRange) :
    Start env jobId ranges =
      (Except.error (RpcError.unavailable "Task Start API not suppported on non-leader"), [])
    ∧ Stop env jobId ranges =
      (Except.error (RpcError.unavailable "Task Stop API not suppported on non-leader"), [])
    ∧ Restart env jobId ranges =
      (Except.error (RpcError.unavailable "Task Restart API not supported on non-leader"), [])
    ∧ Refresh env jobId range? =
      (Except.error (RpcError.unavailable "Task Refresh API not suppported on non-leader"), []) := by
  unfold Start Stop Restart Refresh
  simp [h]

/-- Witness for C3 at a concrete non-leader environment. -/
theorem C3_witness :
    Start { envBase with isLeader := false } "J1" [] =
      (Except.error (RpcError.unavailable "Task Start API not suppported on non-leader"), [])
    ∧ Stop { envBase with isLeader := false } "J1" [] =
      (Except.error (RpcError.unavailable "Task Stop API not suppported on non-leader"), [])
    ∧ Restart { envBase with isLeader := false } "J1" [] =
      (Except.error (RpcError.unavailable "Task Restart API not supported on non-leader"), [])
    ∧ Refresh { envBase with isLeader := false } "J1" none =
      (Except.error (RpcError.unavailable "Task Refresh API not suppported on non-leader"), []) :=
  C3_nonleader_unavailable { envBase with isLeader := false } rfl "J1" [] none

/-! ## C9: whole-job Stop is idempotent on an already-KILLED goal -/

/-- C9: a Stop with no ranges on a job whose cached runtime goal is already
KILLED returns success with every instance id in `StoppedInstanceIds` and
performs no CAS, no version bump and no enqueue: the only effect is the
cache `AddJob`. -/
theorem C9_stop_idempotent (env : Env) (jobId : String) (cfg : JobConfig)
    (jrt : JobRuntime) (hl : env.isLeader = true) (hc : env.getConfig = some cfg)
    (hr : env.getJobRuntime 0 = Except.ok jrt) (hk : jrt.goalState = JobState.KILLED) :
    Stop env jobId [] =
      (Except.ok { stoppedInstanceIds := List.range cfg.instanceCount },
       [Effect.addJob jobId]) := by
  unfold Stop stopJob stopJobLoop
  simp [hl, hc, hr, hk]

/-- Witness for C9: a 3-instance job with goal already KILLED. -/
theorem C9_witness :
    Stop
      { envBase with
        getConfig := some { jobType := JobType.SERVICE, instanceCount := 3 }
        getJobRuntime := fun _ => Except.ok { jrtRunning with goalState := JobState.KILLED } }
      "J1" [] =
      (Except.ok { stoppedInstanceIds := [0, 1, 2] }, [Effect.addJob "J1"]) := by
  have h := C9_stop_idempotent
    { envBase with
      getConfig := some { jobType := JobType.SERVICE, instanceCount := 3 }
      getJobRuntime := fun _ => Except.ok { jrtRunning with goalState := JobState.KILLED } }
    "J1" { jobType := JobType.SERVICE, instanceCount := 3 }
    { jrtRunning with goalState := JobState.KILLED } rfl rfl rfl rfl
  simpa using h

end Peloton

namespace Peloton

/-! ## C5: whole-job Stop short-circuit -/

/-- An environment for the C5 counterexample: a 2-instance SERVICE job with
running tasks 0 and 1. -/
def envC5 : Env :=
  { envBase with
    getConfig := some { jobType := JobType.SERVICE, instanceCount := 2 }
    getJobRuntime := fun _ => Except.ok jrtRunning
    tasksByRanges := fun _ =>
      some [{ instanceId := 0, runtime := rtRunning },
            { instanceId := 1, runtime := { rtRunning with mesosTaskId := "J1-1-0" } }] }

/-- C5 fails as stated: the ranges `[0,1), [1,2)` jointly cover the whole
instance range `[0, 2)` of the job, yet `Stop` does not take the whole-job
path: it performs no job-level `CompareAndSetRuntime` at all and instead
issues a per-task `PatchTasks` write. -/
theorem C5_counterexample :
    (∀ i, i < 2 →
      ([{ From := 0, To := 1 }, { From := 1, To := 2 }] : List InstanceRange).any
        (fun r => decide (r.From ≤ i) && decide (i < r.To)))
    ∧ (Stop envC5 "J1" [{ From := 0, To := 1 }, { From := 1, To := 2 }]).2.countP
        Effect.isJobCAS = 0
    ∧ (Stop envC5 "J1" [{ From := 0, To := 1 }, { From := 1, To := 2 }]).2.countP
        Effect.isTaskWrite = 1 := by
  refine ⟨by decide, ?_, ?_⟩ <;> decide

/-- C5 as amended: when the ranges are absent or are a single range with
`from = 0` and `to ≥ instance_count`, and the cached goal state is not
already KILLED and the CAS succeeds on the first attempt, the handler stops
the whole job: one job-level CAS setting `goal_state = KILLED` and
`desired_state_version + 1`, one job enqueue, no per-task write, and every
instance id in `StoppedInstanceIds`. -/
theorem C5_amended_whole_job (env : Env) (jobId : String) (ranges : List InstanceRange)
    (cfg : JobConfig) (jrt : JobRuntime)
    (hl : env.isLeader = true) (hc : env.getConfig = some cfg)
    (hr : env.getJobRuntime 0 = Except.ok jrt) (hnk : jrt.goalState ≠ JobState.KILLED)
    (hcas : env.jobCAS 0 = CASOutcome.ok)
    (hrange : ranges = [] ∨ ∃ r, ranges = [r] ∧ r.From = 0 ∧ cfg.instanceCount ≤ r.To) :
    Stop env jobId ranges =
      (Except.ok { stoppedInstanceIds := List.range cfg.instanceCount },
       [Effect.addJob jobId,
        Effect.jobCAS
          { jrt with
            desiredStateVersion := jrt.desiredStateVersion + 1
            goalState := JobState.KILLED },
        Effect.enqueueJob]) := by
  rcases hrange with rfl | ⟨r, rfl, hf, ht⟩ <;>
    · unfold Stop stopJob stopJobLoop
      simp_all

/-- Witness for the amended C5: a 3-instance job, no ranges, first CAS
succeeding. -/
theorem C5_witness :
    Stop
      { envBase with
        getConfig := some { jobType := JobType.SERVICE, instanceCount := 3 }
        getJobRuntime := fun _ => Except.ok jrtRunning }
      "J1" [] =
      (Except.ok { stoppedInstanceIds := [0, 1, 2] },
       [Effect.addJob "J1",
        Effect.jobCAS
          { jrtRunning with
            desiredStateVersion := jrtRunning.desiredStateVersion + 1
            goalState := JobState.KILLED },
        Effect.enqueueJob]) := by
  have h := C5_amended_whole_job
    { envBase with
      getConfig := some { jobType := JobType.SERVICE, instanceCount := 3 }
      getJobRuntime := fun _ => Except.ok jrtRunning }
    "J1" [] { jobType := JobType.SERVICE, instanceCount := 3 } jrtRunning
    rfl rfl rfl (by decide) rfl (Or.inl rfl)
  simpa using h

/-! ## C6: Restart diffs -/

/-- C6: for every Restart whose task fetch and patch succeed, each selected
task receives a diff raising `desired_mesos_task_id` to `(job, instance,
run + 1)` (parse failure meaning run 0, per `restartDiffEntry` built on
`ParseRunID`), the diffs are applied by one `PatchTasks`, and each patched
task is enqueued in the goal-state driver. -/
theorem C6_restart_diffs (env : Env) (jobId : String) (ranges : List InstanceRange)
    (tis : List TaskInfo) (hl : env.isLeader = true)
    (ht : env.tasksByRanges ranges = some tis) (hp : env.patchOutcome = none) :
    Restart env jobId ranges =
      (Except.ok (),
       [Effect.addJob jobId, Effect.patchTasks (tis.map (restartDiffEntry jobId))]
         ++ (tis.map (restartDiffEntry jobId)).map (fun d => Effect.enqueueTask d.1)) := by
  unfold Restart getRuntimeDiffsForRestart
  simp [hl, ht, hp]

/-- Witness for C6: two tasks, one with a malformed mesos task id (run falls
back to 0, so the desired id gets run 1). -/
theorem C6_witness :
    Restart
      { envBase with
        tasksByRanges := fun _ =>
          some [{ instanceId := 0, runtime := { rtRunning with mesosTaskId := "J1-0-7" } },
                { instanceId := 1, runtime := { rtRunning with mesosTaskId := "garbage" } }] }
      "J1" [{ From := 0, To := 2 }] =
      (Except.ok (),
       [Effect.addJob "J1",
        Effect.patchTasks
          [(0, { desiredMesosTaskId := some "J1-0-8" }),
           (1, { desiredMesosTaskId := some "J1-1-1" })],
        Effect.enqueueTask 0, Effect.enqueueTask 1]) := by
  have h := C6_restart_diffs
    { envBase with
      tasksByRanges := fun _ =>
        some [{ instanceId := 0, runtime := { rtRunning with mesosTaskId := "J1-0-7" } },
              { instanceId := 1, runtime := { rtRunning with mesosTaskId := "garbage" } }] }
    "J1" [{ From := 0, To := 2 }]
    [{ instanceId := 0, runtime := { rtRunning with mesosTaskId := "J1-0-7" } },
     { instanceId := 1, runtime := { rtRunning with mesosTaskId := "garbage" } }]
    rfl rfl rfl
  rw [h]
  refine congrArg _ ?_
  decide

end Peloton

namespace Peloton

/-! ## C1: bounded CAS retry -/

/-- When every job CAS attempt below `MaxConcurrencyErrorRetry` conflicts,
the Start job-update loop started at `count < MaxConcurrencyErrorRetry`
surfaces the failure after exactly `MaxConcurrencyErrorRetry - count` CAS
attempts. -/
theorem startJobUpdateLoop_allUV (env : Env) (cfg : JobConfig) (jrt : JobRuntime)
    (hr : ∀ i, env.getJobRuntime i = Except.ok jrt)
    (hnb : ¬(cfg.jobType = JobType.BATCH ∧ IsPelotonJobStateTerminal jrt.state))
    (huv : ∀ i, i < MaxConcurrencyErrorRetry → env.jobCAS i = CASOutcome.unexpectedVersion) :
    ∀ d count, MaxConcurrencyErrorRetry - count = d → count < MaxConcurrencyErrorRetry →
      startJobUpdateLoop env cfg count =
        (Except.error (Except.ok
          { error := some (StartError.failure
              "task start failed while updating job status unexpected version") }),
         List.replicate (MaxConcurrencyErrorRetry - count)
           (Effect.jobCAS
             { jrt with
               state := JobState.PENDING
               goalState := GetDefaultJobGoalState cfg.jobType })) := by
  intro d
  induction d with
  | zero => intro count hd hlt; omega
  | succ d ih =>
    intro count hd hlt
    unfold startJobUpdateLoop
    rw [hr count, huv count hlt]
    simp only [hnb, if_false]
    by_cases hc : count + 1 < MaxConcurrencyErrorRetry
    · rw [dif_pos hc, ih (count + 1) (by omega) hc]
      have hrep : MaxConcurrencyErrorRetry - count
          = (MaxConcurrencyErrorRetry - (count + 1)) + 1 := by omega
      rw [hrep, List.replicate_succ]
    · rw [dif_neg hc]
      have hrep : MaxConcurrencyErrorRetry - count = 1 := by omega
      rw [hrep, List.replicate_succ, List.replicate_zero]

/-- When every job CAS attempt below `MaxConcurrencyErrorRetry` conflicts,
the stop-job loop started at `count < MaxConcurrencyErrorRetry` surfaces the
`UpdateError` after exactly `MaxConcurrencyErrorRetry - count` CAS
attempts. -/
theorem stopJobLoop_allUV (env : Env) (instanceList : List Nat) (jrt : JobRuntime)
    (hr : ∀ i, env.getJobRuntime i = Except.ok jrt)
    (hnk : jrt.goalState ≠ JobState.KILLED)
    (huv : ∀ i, i < MaxConcurrencyErrorRetry → env.jobCAS i = CASOutcome.unexpectedVersion) :
    ∀ d count, MaxConcurrencyErrorRetry - count = d → count < MaxConcurrencyErrorRetry →
      stopJobLoop env instanceList count =
        (Except.error
          { error := some (StopError.updateError
              "Job state update failed for unexpected version")
            invalidInstanceIds := instanceList },
         List.replicate (MaxConcurrencyErrorRetry - count)
           (Effect.jobCAS
             { jrt with
               desiredStateVersion := jrt.desiredStateVersion + 1
               goalState := JobState.KILLED })) := by
  intro d
  induction d with
  | zero => intro count hd hlt; omega
  | succ d ih =>
    intro count hd hlt
    unfold stopJobLoop
    rw [hr count, huv count hlt]
    simp only [hnk, if_false]
    by_cases hc : count + 1 < MaxConcurrencyErrorRetry
    · rw [dif_pos hc, ih (count + 1) (by omega) hc]
      have hrep : MaxConcurrencyErrorRetry - count
          = (MaxConcurrencyErrorRetry - (count + 1)) + 1 := by omega
      rw [hrep, List.replicate_succ]
    · rw [dif_neg hc]
      have hrep : MaxConcurrencyErrorRetry - count = 1 := by omega
      rw [hrep, List.replicate_succ, List.replicate_zero]

end Peloton

namespace Peloton

/-- An environment for the C1 counterexample: the first 5 job CAS attempts
conflict, a 6th attempt would succeed. -/
def envC1 : Env :=
  { envBase with
    getConfig := some { jobType := JobType.SERVICE, instanceCount := 1 }
    getJobRuntime := fun _ => Except.ok jrtRunning
    jobCAS := fun i => if i < 5 then CASOutcome.unexpectedVersion else CASOutcome.ok
    tasksByRanges := fun _ => some [] }

/-- C1 fails as stated: with a store whose first 5 `CompareAndSetRuntime`
calls return UnexpectedVersion and whose 6th call would succeed, `Start`
nevertheless surfaces the Failure variant having made exactly 5 CAS attempts
in total — no 6th attempt happens. -/
theorem C1_counterexample :
    (Start envC1 "J1" []).1 = Except.ok
      { error := some (StartError.failure
          "task start failed while updating job status unexpected version") }
    ∧ (Start envC1 "J1" []).2.countP Effect.isJobCAS = 5 := by
  have h := startJobUpdateLoop_allUV envC1 { jobType := JobType.SERVICE, instanceCount := 1 }
    jrtRunning (fun _ => rfl) (by decide)
    (fun i hi => by
      show (if i < 5 then CASOutcome.unexpectedVersion else CASOutcome.ok)
          = CASOutcome.unexpectedVersion
      simp [show i < 5 from hi])
    (MaxConcurrencyErrorRetry - 0) 0 rfl (by decide)
  have hl : envC1.isLeader = true := rfl
  have hc : envC1.getConfig = some { jobType := JobType.SERVICE, instanceCount := 1 } := rfl
  constructor <;>
    · unfold Start
      simp [hl, hc, h, MaxConcurrencyErrorRetry, List.countP_cons, List.countP_nil,
        List.replicate_succ, Effect.isJobCAS]

/-- C1 as amended: the read-modify-write cycle is retried up to
`MaxConcurrencyErrorRetry - 1` (4) times beyond the first attempt, for
`MaxConcurrencyErrorRetry` (5) CAS attempts in total; when all 5 attempts
fail with UnexpectedVersion, the 5th attempt's failure is surfaced as the
Failure variant (Start), or the UpdateError variant (whole-job Stop). -/
theorem C1_amended_retry_bound (env : Env) (jobId : String) (ranges : List InstanceRange)
    (cfg : JobConfig) (jrt : JobRuntime)
    (hl : env.isLeader = true) (hc : env.getConfig = some cfg)
    (hr : ∀ i, env.getJobRuntime i = Except.ok jrt)
    (hnb : ¬(cfg.jobType = JobType.BATCH ∧ IsPelotonJobStateTerminal jrt.state))
    (hnk : jrt.goalState ≠ JobState.KILLED)
    (huv : ∀ i, i < MaxConcurrencyErrorRetry → env.jobCAS i = CASOutcome.unexpectedVersion) :
    Start env jobId ranges =
      (Except.ok
        { error := some (StartError.failure
            "task start failed while updating job status unexpected version") },
       Effect.addJob jobId ::
         List.replicate MaxConcurrencyErrorRetry
           (Effect.jobCAS
             { jrt with
               state := JobState.PENDING
               goalState := GetDefaultJobGoalState cfg.jobType }))
    ∧ Stop env jobId [] =
      (Except.ok
        { invalidInstanceIds := List.range cfg.instanceCount
          error := some (StopError.updateError
            "Job state update failed for unexpected version") },
       Effect.addJob jobId ::
         List.replicate MaxConcurrencyErrorRetry
           (Effect.jobCAS
             { jrt with
               desiredStateVersion := jrt.desiredStateVersion + 1
               goalState := JobState.KILLED })) := by
  have h1 := startJobUpdateLoop_allUV env cfg jrt hr hnb huv
    (MaxConcurrencyErrorRetry - 0) 0 rfl (by decide)
  have h2 := stopJobLoop_allUV env (List.range cfg.instanceCount) jrt hr hnk huv
    (MaxConcurrencyErrorRetry - 0) 0 rfl (by decide)
  constructor
  · unfold Start
    simp [hl, hc, h1]
  · unfold Stop stopJob
    simp [hl, hc, h2]

/-- Witness for the amended C1: every CAS attempt conflicts; both Start and
whole-job Stop surface the error after 5 attempts. -/
theorem C1_witness :
    Start { envC1 with jobCAS := fun _ => CASOutcome.unexpectedVersion } "J1" [] =
      (Except.ok
        { error := some (StartError.failure
            "task start failed while updating job status unexpected version") },
       Effect.addJob "J1" ::
         List.replicate 5
           (Effect.jobCAS
             { jrtRunning with
               state := JobState.PENDING
               goalState := GetDefaultJobGoalState JobType.SERVICE }))
    ∧ Stop { envC1 with jobCAS := fun _ => CASOutcome.unexpectedVersion } "J1" [] =
      (Except.ok
        { invalidInstanceIds := [0]
          error := some (StopError.updateError
            "Job state update failed for unexpected version") },
       Effect.addJob "J1" ::
         List.replicate 5
           (Effect.jobCAS
             { jrtRunning with
               desiredStateVersion := jrtRunning.desiredStateVersion + 1
               goalState := JobState.KILLED })) := by
  have h := C1_amended_retry_bound
    { envC1 with jobCAS := fun _ => CASOutcome.unexpectedVersion } "J1" []
    { jobType := JobType.SERVICE, instanceCount := 1 } jrtRunning
    rfl rfl (fun _ => rfl) (by decide) (by decide) (fun _ _ => rfl)
  simpa [MaxConcurrencyErrorRetry] using h

end Peloton

namespace Peloton

/-! ## C2: terminal-BATCH rejection; SERVICE never rejected -/

/-- For a SERVICE job the Start job-update loop can never produce the
InvalidArgument rejection: that error only arises on the BATCH branch. -/
theorem startJobUpdateLoop_service_no_invalid (env : Env) (cfg : JobConfig)
    (hsvc : cfg.jobType = JobType.SERVICE) :
    ∀ d count, MaxConcurrencyErrorRetry - count = d → ∀ msg,
      (startJobUpdateLoop env cfg count).1
        ≠ Except.error (Except.error (RpcError.invalidArgument msg)) := by
  intro d
  induction d with
  | zero =>
    intro count hd msg
    unfold startJobUpdateLoop
    match hrt : env.getJobRuntime count with
    | Except.error e => simp
    | Except.ok jrt =>
      simp only [hsvc]
      have hcond : ¬(JobType.SERVICE = JobType.BATCH
          ∧ IsPelotonJobStateTerminal jrt.state) := by simp
      simp only [hcond, if_false]
      match hcas : env.jobCAS count with
      | CASOutcome.ok => simp
      | CASOutcome.unexpectedVersion =>
        have hlt : ¬(count + 1 < MaxConcurrencyErrorRetry) := by omega
        simp [hlt]
      | CASOutcome.otherError e => simp
  | succ d ih =>
    intro count hd msg
    unfold startJobUpdateLoop
    match hrt : env.getJobRuntime count with
    | Except.error e => simp
    | Except.ok jrt =>
      simp only [hsvc]
      have hcond : ¬(JobType.SERVICE = JobType.BATCH
          ∧ IsPelotonJobStateTerminal jrt.state) := by simp
      simp only [hcond, if_false]
      match hcas : env.jobCAS count with
      | CASOutcome.ok => simp
      | CASOutcome.unexpectedVersion =>
        by_cases hlt : count + 1 < MaxConcurrencyErrorRetry
        · have := ih (count + 1) (by omega) msg
          simp only [dif_pos hlt]
          simpa using this
        · simp [hlt]
      | CASOutcome.otherError e => simp

/-- C2: a Start on a BATCH job whose runtime state is terminal returns
InvalidArgument with no runtime modified (the only effect is the cache
`AddJob`); on a SERVICE job Start is never rejected with InvalidArgument,
and when the job-level operations succeed it returns the per-task
started/invalid partition with no job-level error. -/
theorem C2_batch_terminal_invalid (env : Env) (jobId : String)
    (ranges : List InstanceRange) (cfg : JobConfig) (jrt : JobRuntime)
    (hl : env.isLeader = true) (hc : env.getConfig = some cfg)
    (hr : env.getJobRuntime 0 = Except.ok jrt) :
    (cfg.jobType = JobType.BATCH → IsPelotonJobStateTerminal jrt.state = true →
      Start env jobId ranges =
        (Except.error (RpcError.invalidArgument "cannot start tasks in a terminated job"),
         [Effect.addJob jobId]))
    ∧ (cfg.jobType = JobType.SERVICE →
        (∀ msg, (Start env jobId ranges).1
            ≠ Except.error (RpcError.invalidArgument msg))
        ∧ (∀ tis, env.jobCAS 0 = CASOutcome.ok →
            env.tasksByRanges ranges = some tis →
            (Start env jobId ranges).1 =
              Except.ok
                { startedInstanceIds := (startProcessTasks env jobId cfg tis).1
                  invalidInstanceIds := (startProcessTasks env jobId cfg tis).2.1
                  error := none })) := by
  refine ⟨?_, ?_⟩
  · intro hb hterm
    unfold Start startJobUpdateLoop
    simp [hl, hc, hr, hb, hterm]
  · intro hsvc
    constructor
    · intro msg
      unfold Start
      simp only [hl, Bool.not_true, hc]
      match hS : startJobUpdateLoop env cfg 0 with
      | (Except.error r, effs1) =>
        have hne := startJobUpdateLoop_service_no_invalid env cfg hsvc
          (MaxConcurrencyErrorRetry - 0) 0 rfl msg
        rw [hS] at hne
        simp only [ne_eq, Except.error.injEq] at hne
        simp [hne]
      | (Except.ok (), effs1) =>
        match ht : env.tasksByRanges ranges with
        | none => simp
        | some tis => simp
    · intro tis hcas ht
      unfold Start startJobUpdateLoop
      simp [hl, hc, hr, hsvc, hcas, ht]

end Peloton

namespace Peloton

/-- A 1-instance BATCH job in terminal runtime state SUCCEEDED. -/
def envBatchTerm : Env :=
  { envBase with
    getConfig := some { jobType := JobType.BATCH, instanceCount := 1 }
    getJobRuntime := fun _ => Except.ok { jrtRunning with state := JobState.SUCCEEDED } }

/-- The same terminal runtime state on a SERVICE job. -/
def envSvcTerm : Env :=
  { envBatchTerm with
    getConfig := some { jobType := JobType.SERVICE, instanceCount := 1 }
    tasksByRanges := fun _ => some [] }

/-- Witness for C2: the terminal BATCH job is rejected with only the cache
`AddJob` effect; the SERVICE job in the same runtime state goes through and
returns the per-task partition. -/
theorem C2_witness :
    Start envBatchTerm "J1" [] =
      (Except.error (RpcError.invalidArgument "cannot start tasks in a terminated job"),
       [Effect.addJob "J1"])
    ∧ (Start envSvcTerm "J1" []).1 =
      Except.ok { startedInstanceIds := [], invalidInstanceIds := [], error := none } := by
  constructor
  · exact (C2_batch_terminal_invalid envBatchTerm "J1" []
      { jobType := JobType.BATCH, instanceCount := 1 }
      { jrtRunning with state := JobState.SUCCEEDED } rfl rfl rfl).1 rfl rfl
  · have h := ((C2_batch_terminal_invalid envSvcTerm "J1" []
      { jobType := JobType.SERVICE, instanceCount := 1 }
      { jrtRunning with state := JobState.SUCCEEDED } rfl rfl rfl).2 rfl).2 [] rfl rfl
    simpa [startProcessTasks] using h

end Peloton

namespace Peloton

/-! ## C4: per-task behaviour of Start -/

/-- A task whose runtime reads fine but whose goal is not KILLED is skipped
with no effect. -/
theorem startTaskLoop_skip (env : Env) (jobId : String) (cfg : JobConfig)
    (ti : TaskInfo) (rt : TaskRuntime)
    (hr : env.getTaskRuntime ti.instanceId 0 = Except.ok rt)
    (hg : rt.goalState ≠ TaskState.KILLED) :
    startTaskLoop env jobId cfg ti 0 = (StartTaskOutcome.skipped, []) := by
  unfold startTaskLoop
  simp [hr, hg]

/-- A task with goal KILLED whose first CAS succeeds is started with exactly
one CAS write carrying the regenerated runtime. -/
theorem startTaskLoop_started (env : Env) (jobId : String) (cfg : JobConfig)
    (ti : TaskInfo) (rt : TaskRuntime)
    (hr : env.getTaskRuntime ti.instanceId 0 = Except.ok rt)
    (hg : rt.goalState = TaskState.KILLED)
    (hcas : env.taskCAS ti.instanceId 0 = CASOutcome.ok) :
    startTaskLoop env jobId cfg ti 0 =
      (StartTaskOutcome.started,
       [Effect.taskCAS ti.instanceId
         { RegenerateMesosTaskRuntime jobId ti.instanceId rt with
           goalState := GetDefaultTaskGoalState cfg.jobType
           message := "Task start API request" }]) := by
  unfold startTaskLoop
  simp [hr, hg, hcas]

/-- Membership in the started list of the per-task iteration: exactly the
fetched tasks whose `AddTask` succeeded and whose retry loop started them. -/
theorem mem_startProcessTasks_started (env : Env) (jobId : String) (cfg : JobConfig)
    (tis : List TaskInfo) (inst : Nat) :
    inst ∈ (startProcessTasks env jobId cfg tis).1 ↔
      ∃ ti ∈ tis, ti.instanceId = inst ∧ env.addTask ti.instanceId = true ∧
        (startTaskLoop env jobId cfg ti 0).1 = StartTaskOutcome.started := by
  induction tis with
  | nil => simp [startProcessTasks]
  | cons ti rest ih =>
    unfold startProcessTasks
    by_cases ha : env.addTask ti.instanceId
    · simp only [ha, if_true]
      match hL : startTaskLoop env jobId cfg ti 0 with
      | (StartTaskOutcome.started, effs) =>
        simp only [List.mem_cons]
        constructor
        · rintro (rfl | hmem)
          · exact ⟨ti, Or.inl rfl, rfl, ha, by rw [hL]⟩
          · obtain ⟨ti', hti', h1, h2, h3⟩ := ih.mp hmem
            exact ⟨ti', Or.inr hti', h1, h2, h3⟩
        · rintro ⟨ti', rfl | hti', rfl, h2, h3⟩
          · exact Or.inl rfl
          · exact Or.inr (ih.mpr ⟨ti', hti', rfl, h2, h3⟩)
      | (StartTaskOutcome.failed, effs) =>
        simp only [List.mem_cons]
        rw [ih]
        constructor
        · rintro ⟨ti', hti', h1, h2, h3⟩
          exact ⟨ti', Or.inr hti', h1, h2, h3⟩
        · rintro ⟨ti', rfl | hti', rfl, h2, h3⟩
          · rw [hL] at h3; cases h3
          · exact ⟨ti', hti', rfl, h2, h3⟩
      | (StartTaskOutcome.skipped, effs) =>
        simp only [List.mem_cons]
        rw [ih]
        constructor
        · rintro ⟨ti', hti', h1, h2, h3⟩
          exact ⟨ti', Or.inr hti', h1, h2, h3⟩
        · rintro ⟨ti', rfl | hti', rfl, h2, h3⟩
          · rw [hL] at h3; cases h3
          · exact ⟨ti', hti', rfl, h2, h3⟩
    · simp only [ha, if_false, Bool.false_eq_true, List.mem_cons]
      rw [ih]
      constructor
      · rintro ⟨ti', hti', h1, h2, h3⟩
        exact ⟨ti', Or.inr hti', h1, h2, h3⟩
      · rintro ⟨ti', rfl | hti', rfl, h2, h3⟩
        · exact absurd h2 (by simpa using ha)
        · exact ⟨ti', hti', rfl, h2, h3⟩

/-- Membership in the invalid list of the per-task iteration: the fetched
tasks that failed `AddTask` or whose retry loop failed. -/
theorem mem_startProcessTasks_failed (env : Env) (jobId : String) (cfg : JobConfig)
    (tis : List TaskInfo) (inst : Nat) :
    inst ∈ (startProcessTasks env jobId cfg tis).2.1 ↔
      ∃ ti ∈ tis, ti.instanceId = inst ∧
        (env.addTask ti.instanceId = false ∨
          (env.addTask ti.instanceId = true ∧
           (startTaskLoop env jobId cfg ti 0).1 = StartTaskOutcome.failed)) := by
  induction tis with
  | nil => simp [startProcessTasks]
  | cons ti rest ih =>
    unfold startProcessTasks
    by_cases ha : env.addTask ti.instanceId
    · simp only [ha, if_true]
      match hL : startTaskLoop env jobId cfg ti 0 with
      | (StartTaskOutcome.started, effs) =>
        simp only [List.mem_cons]
        rw [ih]
        constructor
        · rintro ⟨ti', hti', h1, h2⟩
          exact ⟨ti', Or.inr hti', h1, h2⟩
        · rintro ⟨ti', rfl | hti', rfl, h2⟩
          · rcases h2 with h2 | ⟨_, h3⟩
            · rw [ha] at h2; cases h2
            · rw [hL] at h3; cases h3
          · exact ⟨ti', hti', rfl, h2⟩
      | (StartTaskOutcome.failed, effs) =>
        simp only [List.mem_cons]
        constructor
        · rintro (rfl | hmem)
          · exact ⟨ti, Or.inl rfl, rfl, Or.inr ⟨ha, by rw [hL]⟩⟩
          · obtain ⟨ti', hti', h1, h2⟩ := ih.mp hmem
            exact ⟨ti', Or.inr hti', h1, h2⟩
        · rintro ⟨ti', rfl | hti', rfl, h2⟩
          · exact Or.inl rfl
          · exact Or.inr (ih.mpr ⟨ti', hti', rfl, h2⟩)
      | (StartTaskOutcome.skipped, effs) =>
        simp only [List.mem_cons]
        rw [ih]
        constructor
        · rintro ⟨ti', hti', h1, h2⟩
          exact ⟨ti', Or.inr hti', h1, h2⟩
        · rintro ⟨ti', rfl | hti', rfl, h2⟩
          · rcases h2 with h2 | ⟨_, h3⟩
            · rw [ha] at h2; cases h2
            · rw [hL] at h3; cases h3
          · exact ⟨ti', hti', rfl, h2⟩
    · simp only [ha, if_false, Bool.false_eq_true, List.mem_cons]
      constructor
      · rintro (rfl | hmem)
        · exact ⟨ti, Or.inl rfl, rfl, Or.inl (by simpa using ha)⟩
        · obtain ⟨ti', hti', h1, h2⟩ := ih.mp hmem
          exact ⟨ti', Or.inr hti', h1, h2⟩
      · rintro ⟨ti', rfl | hti', rfl, h2⟩
        · exact Or.inl rfl
        · exact Or.inr (ih.mpr ⟨ti', hti', rfl, h2⟩)

end Peloton

namespace Peloton

/-- The started and invalid lists are sublists of the fetched instance ids
(each fetched task contributes to at most one of them, at most once). -/
theorem startProcessTasks_sublist (env : Env) (jobId : String) (cfg : JobConfig)
    (tis : List TaskInfo) :
    List.Sublist (startProcessTasks env jobId cfg tis).1
      (tis.map (fun ti => ti.instanceId))
    ∧ List.Sublist (startProcessTasks env jobId cfg tis).2.1
      (tis.map (fun ti => ti.instanceId)) := by
  induction tis with
  | nil => simp [startProcessTasks]
  | cons ti rest ih =>
    unfold startProcessTasks
    by_cases ha : env.addTask ti.instanceId
    · simp only [ha, if_true]
      match hL : startTaskLoop env jobId cfg ti 0 with
      | (StartTaskOutcome.started, effs) =>
        exact ⟨List.Sublist.cons₂ _ ih.1, List.Sublist.cons _ ih.2⟩
      | (StartTaskOutcome.failed, effs) =>
        exact ⟨List.Sublist.cons _ ih.1, List.Sublist.cons₂ _ ih.2⟩
      | (StartTaskOutcome.skipped, effs) =>
        exact ⟨List.Sublist.cons _ ih.1, List.Sublist.cons _ ih.2⟩
    · simp only [ha, if_false, Bool.false_eq_true]
      exact ⟨List.Sublist.cons _ ih.1, List.Sublist.cons₂ _ ih.2⟩

/-- Every effect of the Start job-update loop is a job-level CAS write. -/
theorem startJobUpdateLoop_effects_shape (env : Env) (cfg : JobConfig) :
    ∀ d count, MaxConcurrencyErrorRetry - count = d →
      ∀ e ∈ (startJobUpdateLoop env cfg count).2, ∃ rt, e = Effect.jobCAS rt := by
  intro d
  induction d with
  | zero =>
    intro count hd e he
    unfold startJobUpdateLoop at he
    match hrt : env.getJobRuntime count with
    | Except.error err => rw [hrt] at he; simp at he
    | Except.ok jrt =>
      rw [hrt] at he
      by_cases hb : cfg.jobType = JobType.BATCH ∧ IsPelotonJobStateTerminal jrt.state
      · simp [hb] at he
      · simp only [hb, if_false] at he
        match hcas : env.jobCAS count with
        | CASOutcome.ok => rw [hcas] at he; simp at he; exact ⟨_, he⟩
        | CASOutcome.unexpectedVersion =>
          rw [hcas] at he
          have hlt : ¬(count + 1 < MaxConcurrencyErrorRetry) := by omega
          simp only [dif_neg hlt] at he
          simp at he; exact ⟨_, he⟩
        | CASOutcome.otherError err => rw [hcas] at he; simp at he; exact ⟨_, he⟩
  | succ d ih =>
    intro count hd e he
    unfold startJobUpdateLoop at he
    match hrt : env.getJobRuntime count with
    | Except.error err => rw [hrt] at he; simp at he
    | Except.ok jrt =>
      rw [hrt] at he
      by_cases hb : cfg.jobType = JobType.BATCH ∧ IsPelotonJobStateTerminal jrt.state
      · simp [hb] at he
      · simp only [hb, if_false] at he
        match hcas : env.jobCAS count with
        | CASOutcome.ok => rw [hcas] at he; simp at he; exact ⟨_, he⟩
        | CASOutcome.unexpectedVersion =>
          rw [hcas] at he
          by_cases hlt : count + 1 < MaxConcurrencyErrorRetry
          · simp only [dif_pos hlt, List.mem_cons] at he
            rcases he with rfl | he
            · exact ⟨_, rfl⟩
            · exact ih (count + 1) (by omega) e he
          · simp only [dif_neg hlt] at he
            simp at he; exact ⟨_, he⟩
        | CASOutcome.otherError err => rw [hcas] at he; simp at he; exact ⟨_, he⟩

/-- Every effect of the per-task retry loop is a task-level CAS write for
that task's instance. -/
theorem startTaskLoop_effects_shape (env : Env) (jobId : String) (cfg : JobConfig)
    (ti : TaskInfo) :
    ∀ d count, MaxConcurrencyErrorRetry - count = d →
      ∀ e ∈ (startTaskLoop env jobId cfg ti count).2,
        ∃ rt, e = Effect.taskCAS ti.instanceId rt := by
  intro d
  induction d with
  | zero =>
    intro count hd e he
    unfold startTaskLoop at he
    match hrt : env.getTaskRuntime ti.instanceId count with
    | Except.error err => rw [hrt] at he; simp at he
    | Except.ok rt =>
      rw [hrt] at he
      by_cases hg : rt.goalState ≠ TaskState.KILLED
      · simp [hg] at he
      · simp only [hg, if_false] at he
        match hcas : env.taskCAS ti.instanceId count with
        | CASOutcome.ok => rw [hcas] at he; simp at he; exact ⟨_, he⟩
        | CASOutcome.unexpectedVersion =>
          rw [hcas] at he
          have hlt : ¬(count + 1 < MaxConcurrencyErrorRetry) := by omega
          simp only [dif_neg hlt] at he
          simp at he; exact ⟨_, he⟩
        | CASOutcome.otherError err => rw [hcas] at he; simp at he; exact ⟨_, he⟩
  | succ d ih =>
    intro count hd e he
    unfold startTaskLoop at he
    match hrt : env.getTaskRuntime ti.instanceId count with
    | Except.error err => rw [hrt] at he; simp at he
    | Except.ok rt =>
      rw [hrt] at he
      by_cases hg : rt.goalState ≠ TaskState.KILLED
      · simp [hg] at he
      · simp only [hg, if_false] at he
        match hcas : env.taskCAS ti.instanceId count with
        | CASOutcome.ok => rw [hcas] at he; simp at he; exact ⟨_, he⟩
        | CASOutcome.unexpectedVersion =>
          rw [hcas] at he
          by_cases hlt : count + 1 < MaxConcurrencyErrorRetry
          · simp only [dif_pos hlt, List.mem_cons] at he
            rcases he with rfl | he
            · exact ⟨_, rfl⟩
            · exact ih (count + 1) (by omega) e he
          · simp only [dif_neg hlt] at he
            simp at he; exact ⟨_, he⟩
        | CASOutcome.otherError err => rw [hcas] at he; simp at he; exact ⟨_, he⟩

/-- Every effect of the per-task iteration is a task-level CAS write. -/
theorem startProcessTasks_effects_shape (env : Env) (jobId : String) (cfg : JobConfig)
    (tis : List TaskInfo) :
    ∀ e ∈ (startProcessTasks env jobId cfg tis).2.2, ∃ i rt, e = Effect.taskCAS i rt := by
  induction tis with
  | nil => simp [startProcessTasks]
  | cons ti rest ih =>
    unfold startProcessTasks
    by_cases ha : env.addTask ti.instanceId
    · simp only [ha, if_true]
      match hL : startTaskLoop env jobId cfg ti 0 with
      | (StartTaskOutcome.started, effs) =>
        intro e he
        rcases List.mem_append.mp he with he | he
        · obtain ⟨rt, rfl⟩ := startTaskLoop_effects_shape env jobId cfg ti
            (MaxConcurrencyErrorRetry - 0) 0 rfl e (by rw [hL]; exact he)
          exact ⟨_, _, rfl⟩
        · exact ih e he
      | (StartTaskOutcome.failed, effs) =>
        intro e he
        rcases List.mem_append.mp he with he | he
        · obtain ⟨rt, rfl⟩ := startTaskLoop_effects_shape env jobId cfg ti
            (MaxConcurrencyErrorRetry - 0) 0 rfl e (by rw [hL]; exact he)
          exact ⟨_, _, rfl⟩
        · exact ih e he
      | (StartTaskOutcome.skipped, effs) =>
        intro e he
        rcases List.mem_append.mp he with he | he
        · obtain ⟨rt, rfl⟩ := startTaskLoop_effects_shape env jobId cfg ti
            (MaxConcurrencyErrorRetry - 0) 0 rfl e (by rw [hL]; exact he)
          exact ⟨_, _, rfl⟩
        · exact ih e he
    · simp only [ha, if_false, Bool.false_eq_true]
      exact ih

/-- The effects of one task's retry loop all appear in the per-task
iteration's effect log. -/
theorem startTaskLoop_effects_mem (env : Env) (jobId : String) (cfg : JobConfig)
    (tis : List TaskInfo) (ti : TaskInfo) (hti : ti ∈ tis)
    (ha : env.addTask ti.instanceId = true) :
    ∀ e ∈ (startTaskLoop env jobId cfg ti 0).2,
      e ∈ (startProcessTasks env jobId cfg tis).2.2 := by
  induction tis with
  | nil => cases hti
  | cons ti' rest ih =>
    intro e he
    rcases List.mem_cons.mp hti with rfl | hti'
    · unfold startProcessTasks
      simp only [ha, if_true]
      match hL : startTaskLoop env jobId cfg ti 0 with
      | (StartTaskOutcome.started, effs) =>
        exact List.mem_append.mpr (Or.inl (by rw [hL] at he; exact he))
      | (StartTaskOutcome.failed, effs) =>
        exact List.mem_append.mpr (Or.inl (by rw [hL] at he; exact he))
      | (StartTaskOutcome.skipped, effs) =>
        exact List.mem_append.mpr (Or.inl (by rw [hL] at he; exact he))
    · unfold startProcessTasks
      by_cases ha' : env.addTask ti'.instanceId
      · simp only [ha', if_true]
        match hL : startTaskLoop env jobId cfg ti' 0 with
        | (StartTaskOutcome.started, effs) =>
          exact List.mem_append.mpr (Or.inr (ih hti' e he))
        | (StartTaskOutcome.failed, effs) =>
          exact List.mem_append.mpr (Or.inr (ih hti' e he))
        | (StartTaskOutcome.skipped, effs) =>
          exact List.mem_append.mpr (Or.inr (ih hti' e he))
      · simp only [ha', if_false, Bool.false_eq_true]
        exact ih hti' e he

end Peloton

namespace Peloton

/-- C4: in a Start whose job-level phase succeeds, (a) a fetched task whose
goal state is not KILLED is skipped — it lands in neither
`started_instance_ids` nor `invalid_instance_ids`; (b) a fetched task with
goal KILLED whose first CAS succeeds is started: the CAS write carries the
runtime with `mesos_task_id` regenerated to the next run
(`RegenerateMesosTaskRuntime`) and the goal set to the default for the job
type, the task appears in `started_instance_ids` and is enqueued in the
goal-state driver exactly once; and (c) the job is enqueued with default
delay exactly once. -/
theorem C4_start_per_task (env : Env) (jobId : String) (ranges : List InstanceRange)
    (cfg : JobConfig) (jrt : JobRuntime) (tis : List TaskInfo)
    (hl : env.isLeader = true) (hc : env.getConfig = some cfg)
    (hr : env.getJobRuntime 0 = Except.ok jrt)
    (hnb : ¬(cfg.jobType = JobType.BATCH ∧ IsPelotonJobStateTerminal jrt.state))
    (hcas : env.jobCAS 0 = CASOutcome.ok)
    (ht : env.tasksByRanges ranges = some tis)
    (hnd : (tis.map (fun ti => ti.instanceId)).Nodup) :
    (∀ ti ∈ tis, ∀ rt, env.addTask ti.instanceId = true →
      env.getTaskRuntime ti.instanceId 0 = Except.ok rt →
      rt.goalState ≠ TaskState.KILLED →
      ∀ resp, (Start env jobId ranges).1 = Except.ok resp →
        ti.instanceId ∉ resp.startedInstanceIds
        ∧ ti.instanceId ∉ resp.invalidInstanceIds)
    ∧ (∀ ti ∈ tis, ∀ rt, env.addTask ti.instanceId = true →
      env.getTaskRuntime ti.instanceId 0 = Except.ok rt →
      rt.goalState = TaskState.KILLED →
      env.taskCAS ti.instanceId 0 = CASOutcome.ok →
      (∀ resp, (Start env jobId ranges).1 = Except.ok resp →
          ti.instanceId ∈ resp.startedInstanceIds)
      ∧ Effect.taskCAS ti.instanceId
          { RegenerateMesosTaskRuntime jobId ti.instanceId rt with
            goalState := GetDefaultTaskGoalState cfg.jobType
            message := "Task start API request" } ∈ (Start env jobId ranges).2
      ∧ (Start env jobId ranges).2.countP (Effect.isEnqueueTaskFor ti.instanceId) = 1)
    ∧ (Start env jobId ranges).2.countP
        (fun e => e == Effect.enqueueJobDefaultDelay) = 1 := by
  have hloop : startJobUpdateLoop env cfg 0 =
      (Except.ok (),
       [Effect.jobCAS
         { jrt with
           state := JobState.PENDING
           goalState := GetDefaultJobGoalState cfg.jobType }]) := by
    unfold startJobUpdateLoop
    simp [hr, hnb, hcas]
  rcases hP : startProcessTasks env jobId cfg tis with ⟨S, FE⟩
  rcases hFE : FE with ⟨F, E⟩
  subst hFE
  have hstart : Start env jobId ranges =
      (Except.ok { startedInstanceIds := S, invalidInstanceIds := F, error := none },
       Effect.addJob jobId ::
         Effect.jobCAS
           { jrt with
             state := JobState.PENDING
             goalState := GetDefaultJobGoalState cfg.jobType } ::
         (E ++ (S.map Effect.enqueueTask ++ [Effect.enqueueJobDefaultDelay]))) := by
    unfold Start
    simp [hl, hc, hloop, ht, hP]
  have hSnd : S.Nodup := by
    have := (startProcessTasks_sublist env jobId cfg tis).1.nodup hnd
    rw [hP] at this
    exact this
  have hEshape : ∀ e ∈ E, ∃ i rt, e = Effect.taskCAS i rt := by
    intro e he
    exact startProcessTasks_effects_shape env jobId cfg tis e (by rw [hP]; exact he)
  have hinj : ∀ ti₁ ∈ tis, ∀ ti₂ ∈ tis, ti₁.instanceId = ti₂.instanceId → ti₁ = ti₂ := by
    intro ti₁ h1 ti₂ h2 h12
    exact List.inj_on_of_nodup_map hnd h1 h2 h12
  refine ⟨?_, ?_, ?_⟩
  · -- (a) skip
    intro ti hti rt ha hrt hg resp hresp
    rw [hstart] at hresp
    simp only [Except.ok.injEq] at hresp
    subst hresp
    have hskip := startTaskLoop_skip env jobId cfg ti rt hrt hg
    constructor
    · intro hmem
      have := (mem_startProcessTasks_started env jobId cfg tis ti.instanceId).mp
        (by rw [hP]; exact hmem)
      obtain ⟨ti', hti', hid, _, hout⟩ := this
      have : ti' = ti := hinj ti' hti' ti hti hid
      subst this
      rw [hskip] at hout
      cases hout
    · intro hmem
      have := (mem_startProcessTasks_failed env jobId cfg tis ti.instanceId).mp
        (by rw [hP]; exact hmem)
      obtain ⟨ti', hti', hid, hbad⟩ := this
      have : ti' = ti := hinj ti' hti' ti hti hid
      subst this
      rcases hbad with hbad | ⟨_, hout⟩
      · rw [ha] at hbad; cases hbad
      · rw [hskip] at hout; cases hout
  · -- (b) started
    intro ti hti rt ha hrt hg hcask
    have hstartedLoop := startTaskLoop_started env jobId cfg ti rt hrt hg hcask
    have hmemS : ti.instanceId ∈ S := by
      have := (mem_startProcessTasks_started env jobId cfg tis ti.instanceId).mpr
        ⟨ti, hti, rfl, ha, by rw [hstartedLoop]⟩
      rw [hP] at this
      exact this
    refine ⟨?_, ?_, ?_⟩
    · intro resp hresp
      rw [hstart] at hresp
      simp only [Except.ok.injEq] at hresp
      subst hresp
      exact hmemS
    · have hmemE : Effect.taskCAS ti.instanceId
          { RegenerateMesosTaskRuntime jobId ti.instanceId rt with
            goalState := GetDefaultTaskGoalState cfg.jobType
            message := "Task start API request" } ∈ E := by
        have := startTaskLoop_effects_mem env jobId cfg tis ti hti ha
          (Effect.taskCAS ti.instanceId
            { RegenerateMesosTaskRuntime jobId ti.instanceId rt with
              goalState := GetDefaultTaskGoalState cfg.jobType
              message := "Task start API request" })
          (by rw [hstartedLoop]; exact List.mem_singleton.mpr rfl)
        rw [hP] at this
        exact this
      rw [hstart]
      simp only [List.mem_cons, List.mem_append]
      exact Or.inr (Or.inr (Or.inl hmemE))
    · rw [hstart]
      simp only [List.countP_cons, List.countP_append, List.countP_map]
      have h0 : E.countP (Effect.isEnqueueTaskFor ti.instanceId) = 0 := by
        rw [List.countP_eq_zero]
        intro e he
        obtain ⟨i, rt', rfl⟩ := hEshape e he
        simp [Effect.isEnqueueTaskFor]
      have h1 : S.countP ((Effect.isEnqueueTaskFor ti.instanceId) ∘ Effect.enqueueTask) = 1 := by
        have : ((Effect.isEnqueueTaskFor ti.instanceId) ∘ Effect.enqueueTask)
            = (fun i => i == ti.instanceId) := by
          funext i
          simp [Effect.isEnqueueTaskFor, Function.comp]
        rw [this]
        exact List.count_eq_one_of_mem hSnd hmemS
      simp [Effect.isEnqueueTaskFor, h0, h1, List.count]
  · -- (c) one default-delay job enqueue
    rw [hstart]
    simp only [List.countP_cons, List.countP_append, List.countP_map]
    have h0 : E.countP (fun e => e == Effect.enqueueJobDefaultDelay) = 0 := by
      rw [List.countP_eq_zero]
      intro e he
      obtain ⟨i, rt', rfl⟩ := hEshape e he
      simp
    have h1 : S.countP ((fun e => e == Effect.enqueueJobDefaultDelay) ∘ Effect.enqueueTask) = 0 := by
      rw [List.countP_eq_zero]
      intro i _
      simp [Function.comp]
    simp [h0, h1]

end Peloton

namespace Peloton

/-- A killed task runtime at run 3 of instance 2 of job J1. -/
def rtKilled23 : TaskRuntime :=
  { state := TaskState.KILLED, goalState := TaskState.KILLED,
    mesosTaskId := "J1-2-3", desiredMesosTaskId := "J1-2-3", message := "", reason := "" }

/-- The spec's Start scenario: a 3-instance SERVICE job whose instance 2 is
killed at run 3. -/
def envC4 : Env :=
  { envBase with
    getConfig := some { jobType := JobType.SERVICE, instanceCount := 3 }
    getJobRuntime := fun _ => Except.ok jrtRunning
    tasksByRanges := fun _ => some [{ instanceId := 2, runtime := rtKilled23 }]
    getTaskRuntime := fun _ _ => Except.ok rtKilled23 }

/-- Witness for C4 at the spec's scenario: `Start(J1, [2,3))` CAS-writes the
runtime with `mesos_task_id` regenerated from "J1-2-3" to "J1-2-4" and the
goal set to the SERVICE default, reports instance 2 started, and enqueues it
exactly once. -/
theorem C4_witness :
    (∀ resp, (Start envC4 "J1" [{ From := 2, To := 3 }]).1 = Except.ok resp →
        2 ∈ resp.startedInstanceIds)
    ∧ Effect.taskCAS 2
        { rtKilled23 with
          mesosTaskId := "J1-2-4"
          goalState := TaskState.RUNNING
          message := "Task start API request" }
        ∈ (Start envC4 "J1" [{ From := 2, To := 3 }]).2
    ∧ (Start envC4 "J1" [{ From := 2, To := 3 }]).2.countP
        (Effect.isEnqueueTaskFor 2) = 1 := by
  have h := (C4_start_per_task envC4 "J1" [{ From := 2, To := 3 }]
    { jobType := JobType.SERVICE, instanceCount := 3 } jrtRunning
    [{ instanceId := 2, runtime := rtKilled23 }]
    rfl rfl rfl (by decide) rfl rfl (by decide)).2.1
    { instanceId := 2, runtime := rtKilled23 } (List.mem_singleton.mpr rfl)
    rtKilled23 rfl rfl rfl rfl
  have heq : ({ RegenerateMesosTaskRuntime "J1" 2 rtKilled23 with
      goalState := GetDefaultTaskGoalState JobType.SERVICE
      message := "Task start API request" } : TaskRuntime)
      = { rtKilled23 with
          mesosTaskId := "J1-2-4"
          goalState := TaskState.RUNNING
          message := "Task start API request" } := by decide
  refine ⟨h.1, ?_, h.2.2⟩
  have h2 := h.2.1
  rw [heq] at h2
  exact h2

end Peloton


namespace Peloton

/-! ## C7: GetPodEvents run walk -/

/-- The `prev_pod_id` of the last fetched event (empty when there are no
events), as the conversion loop of `GetPodEvents` tracks it. -/
def lastPrevPodId : List StorePodEvent → String
  | [] => ""
  | [e] => e.prevPodId
  | _ :: e :: rest => lastPrevPodId (e :: rest)

/-- The conversion loop's tracked previous pod id is the last event's. -/
theorem convertEventsW_lastPrev (evs : List StorePodEvent) :
    ∀ ws p, convertEventsW evs = Except.ok (ws, p) → p = lastPrevPodId evs := by
  induction evs with
  | nil =>
    intro ws p h
    simp only [convertEventsW, Except.ok.injEq, Prod.mk.injEq] at h
    exact h.2.symm
  | cons e rest ih =>
    intro ws p h
    unfold convertEventsW at h
    cases h1 : parseInt64 e.version with
    | none => rw [h1] at h; cases h
    | some jv =>
      rw [h1] at h
      cases h2 : parseInt64 e.desiredVersion with
      | none => rw [h2] at h; cases h
      | some dv =>
        rw [h2] at h
        cases h3 : convertEventsW rest with
        | error err => rw [h3] at h; cases h
        | ok cp =>
          obtain ⟨ws', p'⟩ := cp
          rw [h3] at h
          simp only [Except.ok.injEq, Prod.mk.injEq] at h
          obtain ⟨_, hp⟩ := h
          match rest with
          | [] => simpa [lastPrevPodId] using hp.symm
          | r :: rs =>
            have hih := ih ws' p' h3
            simp only [List.isEmpty_cons, Bool.false_eq_true, if_false] at hp
            rw [← hp, hih]
            rfl

/-- The run walk the spec describes for `GetPodEvents`, stated from the
spec's words for comparison with the handler: fetch up to `limit` runs,
following each run's last `prev_pod_id`, stopping early when it is empty or
decodes to run 0 (or the store fails). -/
def specRunWalk (env : PodEventsEnv) : Nat → String → List String
  | 0, _ => []
  | limit + 1, podID =>
    match env.store podID with
    | Except.error _ => [podID]
    | Except.ok evs =>
      let prev := lastPrevPodId evs
      if prev.length = 0 then [podID]
      else
        match ParseRunID prev with
        | none => [podID]
        | some 0 => [podID]
        | some (_ + 1) => podID :: specRunWalk env limit prev

/-- The walking loop fetches at most `fuel` runs. -/
theorem getPodEventsLoop_length_le (env : PodEventsEnv) :
    ∀ fuel pid, (getPodEventsLoop env fuel pid).2.length ≤ fuel := by
  intro fuel
  induction fuel with
  | zero => intro pid; simp [getPodEventsLoop]
  | succ fuel ih =>
    intro pid
    unfold getPodEventsLoop
    cases hs : env.store pid with
    | error e => simp
    | ok evs =>
      dsimp only
      cases hc : convertEventsW evs with
      | error e => simp
      | ok cp =>
        obtain ⟨converted, prev⟩ := cp
        dsimp only
        by_cases hp : prev.length = 0
        · simp [hp]
        · simp only [hp, if_false]
          cases hr : ParseRunID prev with
          | none => simp
          | some k =>
            cases k with
            | zero => simp
            | succ k =>
              dsimp only
              cases hl : getPodEventsLoop env fuel prev with
              | mk r effs =>
                have := ih prev
                rw [hl] at this
                cases r with
                | error e => simpa using this
                | ok more => simpa using this

/-- When the walk succeeds, its fetch log is exactly the spec's run walk. -/
theorem getPodEventsLoop_refines_spec (env : PodEventsEnv) :
    ∀ fuel pid ws, (getPodEventsLoop env fuel pid).1 = Except.ok ws →
      (getPodEventsLoop env fuel pid).2 =
        (specRunWalk env fuel pid).map Effect.fetchPodEvents := by
  intro fuel
  induction fuel with
  | zero => intro pid ws _; simp [getPodEventsLoop, specRunWalk]
  | succ fuel ih =>
    intro pid ws h
    unfold getPodEventsLoop at h ⊢
    unfold specRunWalk
    cases hs : env.store pid with
    | error e => rw [hs] at h; cases h
    | ok evs =>
      rw [hs] at h
      dsimp only at h ⊢
      cases hc : convertEventsW evs with
      | error e => rw [hc] at h; cases h
      | ok cp =>
        obtain ⟨converted, prev⟩ := cp
        rw [hc] at h
        dsimp only at h ⊢
        have hprev : prev = lastPrevPodId evs := convertEventsW_lastPrev evs converted prev hc
        rw [← hprev]
        by_cases hp : prev.length = 0
        · simp [hp]
        · simp only [hp, if_false] at h ⊢
          cases hr : ParseRunID prev with
          | none => rw [hr] at h; cases h
          | some k =>
            rw [hr] at h
            cases k with
            | zero => simp
            | succ k =>
              dsimp only at h ⊢
              cases hl : getPodEventsLoop env fuel prev with
              | mk r effs =>
                rw [hl] at h
                cases r with
                | error e => simp at h
                | ok more =>
                  have := ih prev more (by rw [hl])
                  rw [hl] at this
                  simp only [List.map_cons]
                  simpa using this

/-- C7: `GetPodEvents` walks the pod-event chain backwards for at most
`Limit` runs, where `Limit` is the request's limit, defaults to 10 when that
limit is 0, and is forced to 1 when a specific run id is requested; and on
success the fetch log is exactly the spec's run walk, which stops (in
finitely many steps) when the last fetched event's `prev_pod_id` is empty or
decodes to run 0. -/
theorem C7_pod_events_walk (env : PodEventsEnv) (body : GetPodEventsRequest) :
    (GetPodEvents env body).2.length ≤
      (if body.runId.length ≠ 0 then 1 else if body.limit = 0 then 10 else body.limit)
    ∧ ∀ ws, (GetPodEvents env body).1 = Except.ok ws →
        (GetPodEvents env body).2 =
          (specRunWalk env
            (if body.runId.length ≠ 0 then 1 else if body.limit = 0 then 10 else body.limit)
            body.runId).map Effect.fetchPodEvents := by
  unfold GetPodEvents
  dsimp only
  by_cases hrun : body.runId.length ≠ 0
  · simp only [if_pos hrun, if_neg (by omega : ¬(1 : Nat) = 0)]
    exact ⟨getPodEventsLoop_length_le env 1 body.runId,
      fun ws h => getPodEventsLoop_refines_spec env 1 body.runId ws h⟩
  · simp only [if_neg hrun]
    by_cases hlim : body.limit = 0
    · simp only [if_pos hlim]
      exact ⟨getPodEventsLoop_length_le env 10 body.runId,
        fun ws h => getPodEventsLoop_refines_spec env 10 body.runId ws h⟩
    · simp only [if_neg hlim]
      exact ⟨getPodEventsLoop_length_le env body.limit body.runId,
        fun ws h => getPodEventsLoop_refines_spec env body.limit body.runId ws h⟩

end Peloton

namespace Peloton

/-- A stored pod event at a given run with a given predecessor. -/
def mkStoreEvent (pid prev : String) : StorePodEvent :=
  { podId := pid, prevPodId := prev, desiredPodId := pid,
    actualState := "RUNNING", desiredState := "RUNNING", timestamp := "",
    version := "0", desiredVersion := "0", hostname := "", agentId := "",
    message := "", reason := "", healthy := "" }

/-- A pod-event store whose latest run (run 3 of instance 0) points at run 2,
which points at run 0. -/
def envC7 : PodEventsEnv :=
  { store := fun pid =>
      if pid = "" then Except.ok [mkStoreEvent "J1-0-3" "J1-0-2"]
      else if pid = "J1-0-2" then Except.ok [mkStoreEvent "J1-0-2" "J1-0-0"]
      else Except.ok [] }

/-- Witness for C7: a default-limit request walks the chain and fetches
exactly two runs (the second one's predecessor decodes to run 0), staying
within the default limit 10. -/
theorem C7_witness :
    (GetPodEvents envC7 { runId := "", limit := 0 }).2 =
      [Effect.fetchPodEvents "", Effect.fetchPodEvents "J1-0-2"]
    ∧ (GetPodEvents envC7 { runId := "", limit := 0 }).2.length ≤ 10 := by
  have h := C7_pod_events_walk envC7 { runId := "", limit := 0 }
  have h2 := h.2 _ rfl
  constructor
  · rw [h2]
    decide
  · simpa using h.1

end Peloton

namespace WatchSvc

/-- After `k ≤ B` notifies with no consumer, the single fresh client holds
the first `k` events, is still registered, and no signal has been
delivered. -/
theorem iterNotify_fill (B M n : Nat) :
    ∀ k, k ≤ B →
      iterNotify
        { cfg := { bufferSize := B, maxClient := M }, nextId := n,
          taskClients := [(0, { input := [], signal := StopSignal.unknown })] } k =
      ({ cfg := { bufferSize := B, maxClient := M }, nextId := n,
         taskClients := [(0, { input := List.range k, signal := StopSignal.unknown })] },
       []) := by
  intro k
  induction k with
  | zero => intro _; simp [iterNotify]
  | succ k ih =>
    intro hk
    unfold iterNotify
    rw [ih (Nat.le_of_succ_le hk)]
    unfold NotifyTaskChange
    have hkB : k < B := by omega
    simp [hkB, List.range_succ]

/-- C8: starting from a freshly registered task client with queue depth
`BufferSize` and no consumer, `BufferSize` notifies deliver no terminal
signal (it stays `Unknown`) and keep the client registered; the
`(BufferSize+1)`-th notify delivers `Overflow` and removes the client from
the registry. -/
theorem C8_watch_overflow (B M : Nat) (id : Nat) (p0 : WatchProcessor)
    (hnew : NewTaskClient
        { cfg := { bufferSize := B, maxClient := M }, nextId := 0, taskClients := [] }
      = Except.ok (id, p0)) :
    ((iterNotify p0 B).2 = []
      ∧ (iterNotify p0 B).1.taskClients =
          [(id, { input := List.range B, signal := StopSignal.unknown })])
    ∧ (iterNotify p0 (B + 1)).2 =
        [(id, { input := List.range B, signal := StopSignal.overflow })]
    ∧ (iterNotify p0 (B + 1)).1.taskClients = [] := by
  unfold NewTaskClient at hnew
  split at hnew
  · cases hnew
  · simp only [Except.ok.injEq, Prod.mk.injEq] at hnew
    obtain ⟨rfl, rfl⟩ := hnew
    simp only [List.nil_append]
    have hfill := iterNotify_fill B M (0 + 1) B le_rfl
    have hstep :
        iterNotify
          { cfg := { bufferSize := B, maxClient := M }, nextId := 0 + 1,
            taskClients := [(0, { input := [], signal := StopSignal.unknown })] }
          (B + 1) =
        ({ cfg := { bufferSize := B, maxClient := M }, nextId := 0 + 1,
           taskClients := [] },
         [(0, { input := List.range B, signal := StopSignal.overflow })]) := by
      unfold iterNotify
      rw [hfill]
      unfold NotifyTaskChange
      simp
    exact ⟨by rw [hfill]; exact ⟨rfl, rfl⟩, by rw [hstep], by rw [hstep]⟩

/-- Witness for C8 at buffer size 10 (the test's configuration). -/
theorem C8_witness :
    ((iterNotify
        { cfg := { bufferSize := 10, maxClient := 2 }, nextId := 1,
          taskClients := [(0, { input := [], signal := StopSignal.unknown })] } 10).2 = []
      ∧ (iterNotify
        { cfg := { bufferSize := 10, maxClient := 2 }, nextId := 1,
          taskClients := [(0, { input := [], signal := StopSignal.unknown })] } 10).1.taskClients =
          [(0, { input := List.range 10, signal := StopSignal.unknown })])
    ∧ (iterNotify
        { cfg := { bufferSize := 10, maxClient := 2 }, nextId := 1,
          taskClients := [(0, { input := [], signal := StopSignal.unknown })] } (10 + 1)).2 =
        [(0, { input := List.range 10, signal := StopSignal.overflow })]
    ∧ (iterNotify
        { cfg := { bufferSize := 10, maxClient := 2 }, nextId := 1,
          taskClients := [(0, { input := [], signal := StopSignal.unknown })] } (10 + 1)).1.taskClients = [] := by
  have h := C8_watch_overflow 10 2 0
    { cfg := { bufferSize := 10, maxClient := 2 }, nextId := 0 + 1,
      taskClients := [] ++ [(0, { input := [], signal := StopSignal.unknown })] }
    (by unfold NewTaskClient; simp)
  simpa using h

end WatchSvc

namespace AuroraLabel

/-! ## C10: the Aurora metadata label codec inverts -/

/-- Hex digits decode to their value. -/
theorem hexVal_toHexDigit (k : Nat) (h : k < 16) : hexVal (toHexDigit k) = some k := by
  interval_cases k <;> decide

/-- Unfolding `parseStrBody` across a 6-character unicode escape. -/
theorem parseStrBody_u (acc : List Char) (a b c2 d : Char) (rest : List Char) :
    parseStrBody acc ('\\' :: 'u' :: a :: b :: c2 :: d :: rest) =
      (match hexVal a, hexVal b, hexVal c2, hexVal d with
       | some va, some vb, some vc, some vd =>
         parseStrBody (Char.ofNat (((va * 16 + vb) * 16 + vc) * 16 + vd) :: acc) rest
       | _, _, _, _ => none) := by
  rw [parseStrBody.eq_def]
  simp +decide

/-- Parsing one escaped character undoes the escaping. -/
theorem parseStrBody_escapeChar (c : Char) (acc rest : List Char) :
    parseStrBody acc (escapeChar c ++ rest) = parseStrBody (c :: acc) rest := by
  unfold escapeChar
  by_cases h1 : c = '"'
  · subst h1; rw [parseStrBody.eq_def]; simp +decide [unescapeChar]
  · rw [if_neg h1]
    by_cases h2 : c = '\\'
    · subst h2; rw [parseStrBody.eq_def]; simp +decide [unescapeChar]
    · rw [if_neg h2]
      by_cases h3 : c = '\n'
      · subst h3; rw [parseStrBody.eq_def]; simp +decide [unescapeChar]
      · rw [if_neg h3]
        by_cases h4 : c = '\r'
        · subst h4; rw [parseStrBody.eq_def]; simp +decide [unescapeChar]
        · rw [if_neg h4]
          by_cases h5 : c = '\t'
          · subst h5; rw [parseStrBody.eq_def]; simp +decide [unescapeChar]
          · rw [if_neg h5]
            by_cases h6 : c = '<'
            · subst h6
              simp +decide only [ite_true, List.cons_append, List.nil_append]
              rw [parseStrBody_u]
              rw [show hexVal '0' = some 0 from by decide,
                show hexVal '3' = some 3 from by decide,
                show hexVal 'c' = some 12 from by decide]
            · rw [if_neg h6]
              by_cases h7 : c = '>'
              · subst h7
                simp +decide only [ite_true, List.cons_append, List.nil_append]
                rw [parseStrBody_u]
                rw [show hexVal '0' = some 0 from by decide,
                  show hexVal '3' = some 3 from by decide,
                  show hexVal 'e' = some 14 from by decide]
              · rw [if_neg h7]
                by_cases h8 : c = '&'
                · subst h8
                  simp +decide only [ite_true, List.cons_append, List.nil_append]
                  rw [parseStrBody_u]
                  rw [show hexVal '0' = some 0 from by decide,
                    show hexVal '2' = some 2 from by decide,
                    show hexVal '6' = some 6 from by decide]
                · rw [if_neg h8]
                  by_cases h9 : c.toNat < 32
                  · rw [if_pos h9]
                    have hd1 : hexVal (toHexDigit (c.toNat / 16)) = some (c.toNat / 16) :=
                      hexVal_toHexDigit _ (by omega)
                    have hd2 : hexVal (toHexDigit (c.toNat % 16)) = some (c.toNat % 16) :=
                      hexVal_toHexDigit _ (by omega)
                    simp only [List.cons_append, List.nil_append]
                    rw [parseStrBody_u]
                    rw [show hexVal '0' = some 0 from by decide, hd1, hd2]
                    dsimp only
                    rw [show ((0 * 16 + 0) * 16 + c.toNat / 16) * 16 + c.toNat % 16
                        = c.toNat from by omega]
                    rw [Char.ofNat_toNat]
                  · rw [if_neg h9]
                    by_cases h10 : c.toNat = 8232
                    · rw [if_pos h10]
                      simp only [List.cons_append, List.nil_append]
                      rw [parseStrBody_u]
                      rw [show hexVal '2' = some 2 from by decide,
                        show hexVal '0' = some 0 from by decide,
                        show hexVal '8' = some 8 from by decide]
                      dsimp only
                      rw [show ((2 * 16 + 0) * 16 + 2) * 16 + 8 = 8232 from by norm_num]
                      rw [show (8232 : Nat) = c.toNat from h10.symm, Char.ofNat_toNat]
                    · rw [if_neg h10]
                      by_cases h11 : c.toNat = 8233
                      · rw [if_pos h11]
                        simp only [List.cons_append, List.nil_append]
                        rw [parseStrBody_u]
                        rw [show hexVal '2' = some 2 from by decide,
                          show hexVal '0' = some 0 from by decide,
                          show hexVal '9' = some 9 from by decide]
                        dsimp only
                        rw [show ((2 * 16 + 0) * 16 + 2) * 16 + 9 = 8233 from by norm_num]
                        rw [show (8233 : Nat) = c.toNat from h11.symm, Char.ofNat_toNat]
                      · rw [if_neg h11]
                        simp only [List.cons_append, List.nil_append]
                        rw [parseStrBody.eq_def]
                        dsimp only
                        rw [if_neg h1, if_neg h2, if_neg h9]

end AuroraLabel

namespace AuroraLabel

/-- Escaping distributes over the continuation. -/
theorem foldr_escape_append (s : List Char) (t rest : List Char) :
    (s.foldr (fun c a => escapeChar c ++ a) t) ++ rest
      = s.foldr (fun c a => escapeChar c ++ a) (t ++ rest) := by
  induction s with
  | nil => rfl
  | cons c s ih => simp [List.append_assoc, ih]

/-- Parsing an escaped character run stops exactly at the closing quote. -/
theorem parseStrBody_escape_fold (s : List Char) :
    ∀ acc rest, parseStrBody acc
        (s.foldr (fun c a => escapeChar c ++ a) ('"' :: rest))
      = some (acc.reverse ++ s, rest) := by
  induction s with
  | nil =>
    intro acc rest
    rw [parseStrBody.eq_def]
    simp +decide
  | cons c s ih =>
    intro acc rest
    simp only [List.foldr_cons]
    rw [parseStrBody_escapeChar, ih]
    simp

/-- The string codec round-trip: a rendered string literal parses back. -/
theorem parseStringLit_encode (s : String) (rest : List Char) :
    parseStringLit (encodeStringL s ++ rest) = some (s, rest) := by
  unfold encodeStringL parseStringLit
  simp only [List.cons_append]
  simp +decide only [ite_true]
  rw [foldr_escape_append]
  simp only [List.singleton_append]
  rw [parseStrBody_escape_fold]
  simp

/-- Stripping a literal prefix that is present succeeds. -/
theorem stripLit_append (p : List Char) : ∀ x, stripLit p (p ++ x) = some x := by
  induction p with
  | nil => intro x; rfl
  | cons c p ih => intro x; simp [stripLit, ih]

/-- The element codec round-trip: a marshalled slice element parses back. -/
theorem parseMetaElem_encode (m : Option Metadata) (rest : List Char) :
    parseMetaElem (encodeMetaElem m ++ rest) = some (m, rest) := by
  match m with
  | none =>
    unfold parseMetaElem
    simp +decide only [encodeMetaElem, stripLit, List.cons_append, List.nil_append,
      ite_true, ite_false]
    rfl
  | some mm =>
    match hk : mm.key, hv : mm.value with
    | none, none =>
      have hmm : mm = {} := by cases mm; simp_all
      subst hmm
      unfold parseMetaElem
      simp +decide [encodeMetaElem, encodeMetaFields, stripLit]
    | some k, none =>
      have hmm : mm = { key := some k } := by cases mm; simp_all
      subst hmm
      unfold parseMetaElem
      simp +decide only [encodeMetaElem, encodeMetaFields, keyFieldLit, valueFieldLit,
        stripLit, parseStringLit_encode, ite_true, ite_false,
        List.cons_append, List.nil_append, List.append_assoc]
    | none, some v =>
      have hmm : mm = { value := some v } := by cases mm; simp_all
      subst hmm
      unfold parseMetaElem
      simp +decide only [encodeMetaElem, encodeMetaFields, keyFieldLit, valueFieldLit,
        stripLit, parseStringLit_encode, ite_true, ite_false,
        List.cons_append, List.nil_append, List.append_assoc]
    | some k, some v =>
      have hmm : mm = { key := some k, value := some v } := by cases mm; simp_all
      subst hmm
      unfold parseMetaElem
      simp +decide only [encodeMetaElem, encodeMetaFields, keyFieldLit, valueFieldLit,
        stripLit, parseStringLit_encode, ite_true, ite_false,
        List.cons_append, List.nil_append, List.append_assoc]

end AuroraLabel

namespace AuroraLabel

/-- The array-items codec round-trip, with any sufficient fuel. -/
theorem parseMetaItems_encode (md : List (Option Metadata)) :
    ∀ (x : Option Metadata) (fuel : Nat) (rest : List Char),
      md.length + 1 ≤ fuel →
      parseMetaItems fuel (encodeMetaItems (x :: md) ++ ']' :: rest)
        = some (x :: md, rest) := by
  induction md with
  | nil =>
    intro x fuel rest hfuel
    match fuel, hfuel with
    | f + 1, _ =>
      show parseMetaItems (f + 1) (encodeMetaElem x ++ ']' :: rest) = _
      unfold parseMetaItems
      rw [parseMetaElem_encode]
      simp +decide only [ite_true, ite_false]
  | cons y md ih =>
    intro x fuel rest hfuel
    match fuel, hfuel with
    | f + 1, hfuel =>
      show parseMetaItems (f + 1)
        ((encodeMetaElem x ++ ',' :: encodeMetaItems (y :: md)) ++ ']' :: rest) = _
      unfold parseMetaItems
      rw [List.append_assoc, List.cons_append, parseMetaElem_encode]
      simp +decide only [ite_true, ite_false]
      rw [ih y f rest (by simpa using Nat.lt_succ_iff.mp (Nat.lt_of_lt_of_le (Nat.lt_succ_self _) hfuel))]

/-- A marshalled slice element is nonempty. -/
theorem encodeMetaElem_length (x : Option Metadata) : 1 ≤ (encodeMetaElem x).length := by
  cases x <;> simp [encodeMetaElem]

/-- A nonempty marshalled item list is at least as long as the slice. -/
theorem encodeMetaItems_length :
    ∀ (md : List (Option Metadata)) (x : Option Metadata),
      (x :: md).length ≤ (encodeMetaItems (x :: md)).length := by
  intro md
  induction md with
  | nil =>
    intro x
    simpa using encodeMetaElem_length x
  | cons y md ih =>
    intro x
    show (x :: y :: md).length ≤ (encodeMetaElem x ++ ',' :: encodeMetaItems (y :: md)).length
    have h1 := encodeMetaElem_length x
    have h2 := ih y
    simp only [List.length_append, List.length_cons] at h1 h2 ⊢
    omega

/-- The head of a marshalled item list opens an object or `null`. -/
theorem encodeMetaItems_head (x : Option Metadata) (md : List (Option Metadata)) :
    ∃ t, encodeMetaItems (x :: md) = 'n' :: t ∨ encodeMetaItems (x :: md) = '{' :: t := by
  match md, x with
  | [], none => exact ⟨_, Or.inl rfl⟩
  | [], some mm => exact ⟨_, Or.inr rfl⟩
  | y :: md, none =>
    show ∃ t, ('n' :: _) ++ _ = 'n' :: t ∨ ('n' :: _) ++ _ = '{' :: t
    exact ⟨_, Or.inl rfl⟩
  | y :: md, some mm =>
    show ∃ t, ('{' :: _) ++ _ = 'n' :: t ∨ ('{' :: _) ++ _ = '{' :: t
    exact ⟨_, Or.inr rfl⟩

/-- The codec round-trip: unmarshalling the marshalled slice recovers it. -/
theorem decodeMetaList_encode (md : List (Option Metadata)) :
    decodeMetaList (String.mk (encodeMetaList md)) = some md := by
  match md with
  | [] => decide
  | x :: xs =>
    have hlen := encodeMetaItems_length xs x
    obtain ⟨t, ht⟩ := encodeMetaItems_head x xs
    have hbound : xs.length + 1 ≤ (encodeMetaItems (x :: xs) ++ ']' :: []).length := by
      simp only [List.length_cons] at hlen
      simp only [List.length_append, List.length_cons, List.length_nil]
      omega
    have hitems := parseMetaItems_encode xs x
      ((encodeMetaItems (x :: xs) ++ ']' :: []).length) [] hbound
    unfold decodeMetaList encodeMetaList
    dsimp only
    rcases ht with ht | ht
    · rw [ht]
      simp only [List.cons_append]
      simp +decide only [ite_true, ite_false]
      rw [← List.cons_append, ← ht, hitems]
      rfl
    · rw [ht]
      simp only [List.cons_append]
      simp +decide only [ite_true, ite_false]
      rw [← List.cons_append, ← ht, hitems]
      rfl

end AuroraLabel

namespace AuroraLabel

/-- Function `ParseAuroraMetadata` decodes the value of the first label
carrying the metadata key. -/
theorem ParseAuroraMetadata_found :
    ∀ (ls : List Label) (l : Label),
      ls.find? (fun lb => lb.key == auroraMetadataKey) = some l →
      ParseAuroraMetadata ls =
        (match decodeMetaList l.value with
         | some m => Except.ok m
         | none => Except.error "json unmarshal error") := by
  intro ls
  induction ls with
  | nil => intro l h; cases h
  | cons a ls ih =>
    intro l h
    by_cases ha : a.key = auroraMetadataKey
    · rw [List.find?_cons_of_pos _ (by simpa using ha)] at h
      injection h with h
      subst h
      unfold ParseAuroraMetadata
      rw [if_pos ha]
    · rw [List.find?_cons_of_neg _ (by simpa using ha)] at h
      unfold ParseAuroraMetadata
      rw [if_neg ha]
      exact ih l h

/-- With no label carrying the metadata key, `ParseAuroraMetadata` errors. -/
theorem ParseAuroraMetadata_missing :
    ∀ ls : List Label,
      ls.find? (fun lb => lb.key == auroraMetadataKey) = none →
      ParseAuroraMetadata ls = Except.error "missing label: aurora_metadata" := by
  intro ls
  induction ls with
  | nil => intro _; rfl
  | cons a ls ih =>
    intro h
    by_cases ha : a.key = auroraMetadataKey
    · rw [List.find?_cons_of_pos _ (by simpa using ha)] at h
      cases h
    · rw [List.find?_cons_of_neg _ (by simpa using ha)] at h
      unfold ParseAuroraMetadata
      rw [if_neg ha]
      exact ih h

/-- C10: `ParseAuroraMetadata` inverts `NewAuroraMetadata`: whenever
`NewAuroraMetadata md` produces label `l`, parsing any label list whose first
label with key `aurora_metadata` is `l` returns `md`; and a label list with
no `aurora_metadata` label parses to an error. -/
theorem C10_aurora_metadata_inverse :
    (∀ (md : List (Option Metadata)) (ls : List Label) (l : Label),
      NewAuroraMetadata md = Except.ok l →
      ls.find? (fun lb => lb.key == auroraMetadataKey) = some l →
      ParseAuroraMetadata ls = Except.ok md)
    ∧ ∀ ls : List Label,
      ls.find? (fun lb => lb.key == auroraMetadataKey) = none →
      ParseAuroraMetadata ls = Except.error "missing label: aurora_metadata" := by
  constructor
  · intro md ls l hnew hfind
    have hl : l = { key := auroraMetadataKey, value := String.mk (encodeMetaList md) } := by
      unfold NewAuroraMetadata at hnew
      injection hnew with h
      exact h.symm
    subst hl
    rw [ParseAuroraMetadata_found ls _ hfind]
    rw [show ({ key := auroraMetadataKey, value := String.mk (encodeMetaList md) } : Label).value = String.mk (encodeMetaList md) from rfl]
    rw [decodeMetaList_encode]
  · exact ParseAuroraMetadata_missing

/-- Witness for C10: a two-label list whose second label is the marshalled
metadata parses back to the metadata; a list without the key errors. -/
theorem C10_witness :
    NewAuroraMetadata [some { key := some "k", value := some "v" }] =
      Except.ok { key := auroraMetadataKey, value := String.mk (encodeMetaList [some { key := some "k", value := some "v" }]) }
    ∧ ParseAuroraMetadata
        [{ key := "other", value := "zzz" },
         { key := auroraMetadataKey, value := String.mk (encodeMetaList [some { key := some "k", value := some "v" }]) }]
        = Except.ok [some { key := some "k", value := some "v" }]
    ∧ ParseAuroraMetadata [{ key := "other", value := "zzz" }]
        = Except.error "missing label: aurora_metadata" := by
  refine ⟨rfl, ?_, ?_⟩
  · exact C10_aurora_metadata_inverse.1 _ _ _ rfl (by decide)
  · exact C10_aurora_metadata_inverse.2 _ (by decide)

end AuroraLabel
